import Mathlib

namespace Gamanip

/-!
Shallow embedding of the gamanip reconciler (src/src/gaApi.js, src/src/errors.js).

JavaScript runtime values are modelled by the mutual inductive `Value`
(object field lists and array item lists are separate mutual inductives so
that functions recursing through them are structurally recursive and reduce
definitionally).
-/

mutual
inductive Value : Type where
  | vUndefined : Value
  | vNull : Value
  | vBool : Bool → Value
  | vNum : Int → Value
  | vStr : String → Value
  | vObj : VFields → Value
  | vArr : VItems → Value
inductive VFields : Type where
  | nil : VFields
  | cons : String → Value → VFields → VFields
inductive VItems : Type where
  | nil : VItems
  | cons : Value → VItems → VItems
end

deriving instance DecidableEq for Value

/-- Build an object Value from a list of key/value pairs. -/
def vobj (l : List (String × Value)) : Value :=
  Value.vObj (l.foldr (fun kv fs => VFields.cons kv.1 kv.2 fs) VFields.nil)

/-- Build an array Value from a list of element Values. -/
def varr (l : List Value) : Value :=
  Value.vArr (l.foldr VItems.cons VItems.nil)

def itemsToList : VItems → List Value
  | .nil => []
  | .cons v rest => v :: itemsToList rest

def itemsLength : VItems → Nat
  | .nil => 0
  | .cons _ rest => itemsLength rest + 1

def itemsGet : VItems → Nat → Value
  | .nil, _ => .vUndefined
  | .cons v _, 0 => v
  | .cons _ rest, n + 1 => itemsGet rest n

def itemsSet : VItems → Nat → Value → VItems
  | .nil, _, _ => .nil
  | .cons _ rest, 0, x => .cons x rest
  | .cons v rest, n + 1, x => .cons v (itemsSet rest n x)

def fieldLookup : VFields → String → Value
  | .nil, _ => .vUndefined
  | .cons k v rest, key => if k = key then v else fieldLookup rest key

/-- Assignment to an object field: replace the first occurrence, else append
(JavaScript preserves insertion order, new keys go last). -/
def fieldSet : VFields → String → Value → VFields
  | .nil, key, x => .cons key x .nil
  | .cons k v rest, key, x =>
    if k = key then .cons k x rest else .cons k v (fieldSet rest key x)

/-- Decimal rendering of a Nat (structurally recursive on a fuel bound so
that it reduces definitionally, unlike `Nat.repr`). -/
def natToStrAux : Nat → Nat → List Char → List Char
  | 0, _, acc => acc
  | fuel + 1, n, acc =>
    let d := Char.ofNat (48 + n % 10)
    if n < 10 then d :: acc else natToStrAux fuel (n / 10) (d :: acc)

def natToStr (n : Nat) : String := String.mk (natToStrAux (n + 1) n [])

def digitVal (c : Char) : Option Nat :=
  let n := c.toNat
  if 48 ≤ n && n ≤ 57 then some (n - 48) else none

def strToNatAux : List Char → Nat → Option Nat
  | [], acc => some acc
  | c :: rest, acc =>
    match digitVal c with
    | some d => strToNatAux rest (acc * 10 + d)
    | none => none

/-- Parse a property key as an array index (decimal digits). Non-canonical
numeric strings ("01") are accepted here although JavaScript would not treat
them as indices; the reconciler only ever generates canonical ones. -/
def strToNat? (s : String) : Option Nat :=
  match s.data with
  | [] => none
  | l => strToNatAux l 0

/-- JavaScript truthiness (NaN is not modelled; `vNum` is an integer). -/
def truthy : Value → Bool
  | .vUndefined => false
  | .vNull => false
  | .vBool b => b
  | .vNum n => n != 0
  | .vStr s => s != ""
  | .vObj _ => true
  | .vArr _ => true

/-- JavaScript `typeof`. Note `typeof null` is "object" and there is no
"array" result: arrays are objects. -/
def typeofV : Value → String
  | .vUndefined => "undefined"
  | .vNull => "object"
  | .vBool _ => "boolean"
  | .vNum _ => "number"
  | .vStr _ => "string"
  | .vObj _ => "object"
  | .vArr _ => "object"

/-- JavaScript strict equality `===` on the modelled values. For objects and
arrays `===` is reference equality; distinct values in this embedding stand
for distinct heap references, so the object/array cases are `false`. (The
reconciler only reaches `===` with a primitive left operand.) -/
def jsEq : Value → Value → Bool
  | .vUndefined, .vUndefined => true
  | .vNull, .vNull => true
  | .vBool a, .vBool b => a == b
  | .vNum a, .vNum b => a == b
  | .vStr a, .vStr b => a == b
  | _, _ => false

/-- JavaScript `a || b`. -/
def jsOr (a b : Value) : Value := if truthy a then a else b

/-- Property read `v[k]` for non-nullish `v`: objects look fields up, arrays
answer numeric keys and "length", strings answer numeric keys and "length",
other primitives have no own properties. Reading a property of `undefined`
or `null` throws in JavaScript; contexts where the source may dereference a
nullish value go through `getProp` below instead. -/
def getF : Value → String → Value
  | .vObj fs, k => fieldLookup fs k
  | .vArr items, k =>
    if k = "length" then .vNum (itemsLength items)
    else match strToNat? k with
      | some i => itemsGet items i
      | none => .vUndefined
  | .vStr s, k =>
    if k = "length" then .vNum s.data.length
    else match strToNat? k with
      | some i =>
        match s.data.get? i with
        | some c => .vStr (String.mk [c])
        | none => .vUndefined
      | none => .vUndefined
  | _, _ => .vUndefined

/-- Length property used by the (dead) `typeof === 'array'` branch of
`shouldBeChanged`. -/
def lengthProp : Value → Value
  | .vArr items => .vNum (itemsLength items)
  | .vStr s => .vNum s.data.length
  | _ => .vUndefined

/-- Non-recursive helper for a string-valued diff target: `Object.keys` of a
string are its character indices and each character compares as a
one-character string (`typeof` "string", so the scalar branch applies). -/
def strKeysMatch (source : Value) : Nat → List Char → Bool
  | _, [] => true
  | i, c :: rest =>
    jsEq (.vStr (String.mk [c])) (getF source (natToStr i)) &&
      strKeysMatch source (i + 1) rest

mutual
/-- gaApi.js:610-620 `shouldBeChanged(source, target)`.
The reduce over `Object.keys(target)` short-circuits on a false accumulator
and has no side effects, so it equals a conjunction over the entries.
Scalar target entries use `===`; `typeof target[k] === 'array'` is never
true in JavaScript (arrays have typeof "object"), so the length-comparison
branch is dead and array entries fall into the recursive object branch.
`Object.keys(undefined)` would throw in JavaScript; that case is
unreachable from the reconciler (recursion only descends into entries of
typeof "object") and is mapped to `false` here. Scalars have no own
enumerable keys, so the reduce returns its initial `true` and the function
returns `false`. -/
def shouldBeChanged (source target : Value) : Bool :=
  match target with
  | .vNull => false
  | .vObj fs => !(keysAllMatch source fs)
  | .vArr items => !(itemsAllMatch source 0 items)
  | .vStr s => !(strKeysMatch source 0 s.data)
  | .vUndefined => false
  | .vBool _ => false
  | .vNum _ => false
/-- The reduce body of `shouldBeChanged` over the fields of an object
target. Each entry: primitives by `===`; the `typeof === 'array'` test is
dead; entries of typeof "object" (null, objects, arrays) recurse with the
source field defaulted to `{}` when falsy. -/
def keysAllMatch (source : Value) (fs : VFields) : Bool :=
  match fs with
  | .nil => true
  | .cons k tv rest =>
    (if typeofV tv != "object" && typeofV tv != "array" then
      jsEq tv (getF source k)
    else if typeofV tv == "array" then
      jsEq (lengthProp tv) (lengthProp (getF source k))
    else
      !shouldBeChanged (jsOr (getF source k) (.vObj .nil)) tv) &&
    keysAllMatch source rest
/-- The reduce body of `shouldBeChanged` over the entries of an array
target: `Object.keys` of an array are its indices "0", "1", ... -/
def itemsAllMatch (source : Value) (i : Nat) (items : VItems) : Bool :=
  match items with
  | .nil => true
  | .cons tv rest =>
    (if typeofV tv != "object" && typeofV tv != "array" then
      jsEq tv (getF source (natToStr i))
    else if typeofV tv == "array" then
      jsEq (lengthProp tv) (lengthProp (getF source (natToStr i)))
    else
      !shouldBeChanged (jsOr (getF source (natToStr i)) (.vObj .nil)) tv) &&
    itemsAllMatch source (i + 1) rest
end

/-!
Error taxonomy (src/src/errors.js plus JavaScript runtime errors).

`gaError` embeds GoogleAnalyticsError: its constructor copies
`err.response.status`, `err.response.statusText` and
`err.response.data.error` into `statusCode`, `message`,
`internalCode = "{status}-{type}"` and `type`; it defines no `errors`
property. `serviceError` embeds ServiceError (statusCode, message).
`referenceError` and `typeError` are the JavaScript runtime errors thrown
when an unbound identifier is evaluated or a property of a nullish value is
dereferenced. `plainError` is an arbitrary rejection value whose (possibly
absent) `errors` property is the given Value; the tag distinguishes
instances so that "propagates unchanged" is expressible.
-/
inductive JsErrorVal : Type where
  | gaError (statusCode : Nat) (message internalCode errType : String)
  | serviceError (statusCode : Nat) (message : String)
  | referenceError (name : String)
  | typeError (msg : String)
  | plainError (errs : Value) (tag : Nat)
deriving DecidableEq

/-- The `errors` property of a rejection value. Error class instances
(GoogleAnalyticsError, ServiceError, ReferenceError, TypeError) define
none, so reading it yields undefined. -/
def errorsField : JsErrorVal → Value
  | .plainError errs _ => errs
  | _ => .vUndefined

/-- gaApi.js:37-42, the reasons whose presence makes backOff retry. -/
def transientReasons : List String :=
  ["rateLimitExceeded", "quotaExceeded", "userRateLimitExceeded", "backendError"]

/-- gaApi.js:35-42, the retry condition of backOff minus the count bound:
`err.errors && err.errors[0] && ~reasons.indexOf(err.errors[0].reason)`.
`indexOf` uses strict equality against a list of strings, so a non-string
reason never matches. -/
def isTransientError (err : JsErrorVal) : Bool :=
  let errs := errorsField err
  truthy errs && truthy (getF errs "0") &&
    (match getF (getF errs "0") "reason" with
     | .vStr s => transientReasons.contains s
     | _ => false)

/-- gaApi.js:14 -/
def MAX_TIMEOUT_COUNT : Nat := 10
/-- gaApi.js:19 -/
def START_TIMEOUT_TIME : Nat := 100

/-- Observable outcome of running a backOff-wrapped operation: the settled
result, the delays passed to setTimeout in order, and how many times the
underlying operation was invoked. -/
structure BackOffRun (α : Type) where
  result : Except JsErrorVal α
  delays : List Nat
  attempts : Nat

/-- gaApi.js:29-55 `tryOnce`, structured over the remaining retry budget
`budget = MAX_TIMEOUT_COUNT - backOffProps.count` so that the recursion is
structural: the JavaScript guard `backOffProps.count < MAX_TIMEOUT_COUNT`
holds exactly when the budget is positive, and each retry increments the
count, i.e. decrements the budget. The operation is modelled as a function
from the invocation index (0-based) to that invocation's outcome. The
setTimeout delay is the current `backOffProps.timeout`; the doubling and
the count increment happen inside the timer callback, before recursing. -/
def tryOnceGo (fn : Nat → Except JsErrorVal α) :
    Nat → Nat → Nat → BackOffRun α
  | 0, attempt, _ =>
    -- exhausted budget (count ≥ MAX_TIMEOUT_COUNT): the conjunction at
    -- gaApi.js:33 is false whatever the error, so the rejection propagates
    match fn attempt with
    | .ok v => ⟨.ok v, [], 1⟩
    | .error err => ⟨.error err, [], 1⟩
  | b + 1, attempt, timeout =>
    match fn attempt with
    | .ok v => ⟨.ok v, [], 1⟩
    | .error err =>
      if isTransientError err then
        let r := tryOnceGo fn b (attempt + 1) (timeout * 2)
        ⟨r.result, timeout :: r.delays, r.attempts + 1⟩
      else ⟨.error err, [], 1⟩

/-- gaApi.js:29 `tryOnce(args, backOffProps)` with explicit props. -/
def tryOnce (fn : Nat → Except JsErrorVal α) (timeout count : Nat) : BackOffRun α :=
  tryOnceGo fn (MAX_TIMEOUT_COUNT - count) 0 timeout

/-- gaApi.js:28-57 `backOff(fn)` applied to its arguments: `tryOnce` with
the default props `{ timeout: START_TIMEOUT_TIME, count: 0 }`. -/
def backOff (fn : Nat → Except JsErrorVal α) : BackOffRun α :=
  tryOnce fn START_TIMEOUT_TIME 0

/-- A transient rejection as produced by the Google API surface:
`{ errors: [{ reason: "rateLimitExceeded" }] }`, tagged to keep instances
apart. -/
def transientErr (tag : Nat) : JsErrorVal :=
  .plainError (varr [vobj [("reason", .vStr "rateLimitExceeded")]]) tag

/-- Property dereference `v.k` (or `v[k]` with a string key): reading a
property of undefined or null throws TypeError; any other value answers via
`getF`. -/
def getProp (v : Value) (k : String) : Except JsErrorVal Value :=
  match v with
  | .vUndefined => .error (.typeError ("Cannot read properties of undefined (reading " ++ k ++ ")"))
  | .vNull => .error (.typeError ("Cannot read properties of null (reading " ++ k ++ ")"))
  | _ => .ok (getF v k)

/-- Numeric indexing `v[i]`. -/
def jsIndex (v : Value) (i : Nat) : Value := getF v (natToStr i)

/-- Numeric indexing `v[i]` where `v` may be nullish (throws TypeError). -/
def jsIndexE (v : Value) (i : Nat) : Except JsErrorVal Value :=
  getProp v (natToStr i)

/-- Property assignment `v[k] = x` as a functional update. Assignment to a
property of a primitive is silently ignored (sloppy mode); the reconciler
only assigns fields of plain objects. -/
def setF (v : Value) (k : String) (x : Value) : Value :=
  match v with
  | .vObj fs => .vObj (fieldSet fs k x)
  | .vArr items =>
    match strToNat? k with
    | some i => .vArr (itemsSet items i x)
    | none => v
  | _ => v

/-- Singleton object literal `{k: v}`. -/
def mkObj1 (k : String) (v : Value) : Value := vobj [(k, v)]

/-- String coercion of a property key (computed member access). The array
case is approximated (unused by the reconciler, whose keys are strings). -/
def jsKeyStr : Value → String
  | .vStr s => s
  | .vNum n => if n < 0 then "-" ++ natToStr (-n).toNat else natToStr n.toNat
  | .vBool b => if b then "true" else "false"
  | .vNull => "null"
  | .vUndefined => "undefined"
  | .vObj _ => "[object Object]"
  | .vArr _ => ""

/-!
The remote surface. Every remote invocation the reconciler can make is a
`RemoteCall` recording the operation and its arguments (session handle
omitted: it is opaque and never inspected). A `World` answers the n-th
remote invocation of a run with the `data` payload of the HTTP response, or
with a raw API rejection. Each resource operation in gaApi.js catches a raw
rejection and wraps it as `new GoogleAnalyticsError(err)`, which copies
`err.response.status/statusText/data.error` and drops everything else
(including the `errors` list backOff inspects); `wrapGA` models that
constructor. Worlds always carry the response fields — a raw rejection
without them would make the GoogleAnalyticsError constructor itself throw,
which no claim exercises.
-/

inductive RemoteCall : Type where
  | getWebProperties (accountId : Value)
  | getWebProperty (accountId webPropertyId : Value)
  | insertWebProperty (accountId : Value) (webProperty : Value)
  | patchWebProperty (accountId webPropertyId : Value) (webProperty : Value)
  | getMetrics (accountId webPropertyId : Value)
  | insertMetrics (accountId webPropertyId : Value) (metric : Value)
  | patchMetrics (accountId webPropertyId customMetricId : Value) (metric : Value)
  | getDimensions (accountId webPropertyId : Value)
  | insertDimensions (accountId webPropertyId : Value) (dimension : Value)
  | patchDimensions (accountId webPropertyId customDimensionId : Value) (dimension : Value)
  | getViews (accountId webPropertyId : Value)
  | insertView (accountId webPropertyId : Value) (view : Value)
  | patchView (accountId webPropertyId profileId : Value) (view : Value)
  | getGoals (accountId webPropertyId profileId : Value)
  | insertGoal (accountId webPropertyId profileId : Value) (goal : Value)
  | patchGoal (accountId webPropertyId profileId goalId : Value) (goal : Value)
deriving DecidableEq

/-- A raw rejection from the Google API transport: the axios-style response
fields read by the GoogleAnalyticsError constructor, plus the `errors`
sub-error list (as a Value, `vUndefined` when absent) that `backOff` would
inspect. -/
structure RawApiError where
  status : Nat
  statusText : String
  errType : String
  errors : Value
deriving DecidableEq

def World : Type := Nat → RemoteCall → Except RawApiError Value

/-- errors.js:30-50, `new GoogleAnalyticsError(err)`:
statusCode = err.response.status, message = err.response.statusText,
type = err.response.data.error, internalCode = "{status}-{type}". No
`errors` property survives the wrapping. -/
def wrapGA (r : RawApiError) : JsErrorVal :=
  .gaError r.status r.statusText (natToStr r.status ++ "-" ++ r.errType) r.errType

/-- The description tree consumed by `make` (gaApi.js:482-510): field
values are JavaScript values; the `views` list entries destructure as
`{view, goals, filters}` (the `= []` parameter defaults for absent goal and
filter lists are applied up front). -/
structure ViewEntry where
  view : Value
  goals : List Value
  filters : List Value
deriving DecidableEq

structure RefObject where
  accountId : Value
  webProperty : Value
  webPropertyId : Value
  customMetrics : Value
  customDimensions : Value
  views : List ViewEntry
deriving DecidableEq

/-- Mutable state threaded through the reconciliation pipeline: the global
remote-call counter (a world answers by invocation index), the ordered
trace of issued remote calls, the in-place mutated description tree, and
the reconciler's local variable `webPropertyId` (reassigned by the
web-property stage). -/
structure MSt where
  callIdx : Nat
  trace : List RemoteCall
  ref : RefObject
  webPropertyId : Value

def M (α : Type) : Type := MSt → Except JsErrorVal α × MSt

def mPure (a : α) : M α := fun s => (.ok a, s)

def mThrow (e : JsErrorVal) : M α := fun s => (.error e, s)

def mBind (x : M α) (f : α → M β) : M β := fun s =>
  match x s with
  | (.ok a, s1) => f a s1
  | (.error e, s1) => (.error e, s1)

def mExcept (x : Except JsErrorVal α) : M α := fun s => (x, s)

def mGetRef : M RefObject := fun s => (.ok s.ref, s)

def mGetWpId : M Value := fun s => (.ok s.webPropertyId, s)

def mSetWpId (v : Value) : M Unit := fun s => (.ok (), { s with webPropertyId := v })

def mModRef (f : RefObject → RefObject) : M Unit := fun s => (.ok (), { s with ref := f s.ref })

/-- Issue a remote call: the call is recorded in the trace, the world
answers by global invocation index, and a raw rejection surfaces as the
GoogleAnalyticsError the operation wraps it in. -/
def callRemote (w : World) (c : RemoteCall) : M Value := fun s =>
  ((w s.callIdx c).mapError wrapGA,
   { s with callIdx := s.callIdx + 1, trace := s.trace ++ [c] })

/-- In-place element update of an array-valued field. -/
def setArrAt (v : Value) (i : Nat) (x : Value) : Value :=
  match v with
  | .vArr items => .vArr (itemsSet items i x)
  | _ => v

def setListAt : List Value → Nat → Value → List Value
  | [], _, _ => []
  | _ :: rest, 0, x => x :: rest
  | g :: rest, n + 1, x => g :: setListAt rest n x

def modViews : List ViewEntry → Nat → (ViewEntry → ViewEntry) → List ViewEntry
  | [], _, _ => []
  | e :: rest, 0, f => f e :: rest
  | e :: rest, n + 1, f => e :: modViews rest n f

def mSetMetricAt (i : Nat) (m : Value) : M Unit :=
  mModRef fun ref => { ref with customMetrics := setArrAt ref.customMetrics i m }

def mSetDimAt (i : Nat) (d : Value) : M Unit :=
  mModRef fun ref => { ref with customDimensions := setArrAt ref.customDimensions i d }

def viewEntryAt (l : List ViewEntry) (i : Nat) : ViewEntry :=
  l.getD i ⟨.vUndefined, [], []⟩

def mGetViewAt (i : Nat) : M Value := fun s => (.ok (viewEntryAt s.ref.views i).view, s)

def mSetViewAt (i : Nat) (v : Value) : M Unit :=
  mModRef fun ref => { ref with views := modViews ref.views i (fun e => { e with view := v }) }

def mSetGoalAt (viewIdx gIdx : Nat) (g : Value) : M Unit :=
  mModRef fun ref =>
    { ref with
      views := modViews ref.views viewIdx (fun e => { e with goals := setListAt e.goals gIdx g }) }

/-- gaApi.js:622-627 `findWebPropertyByUniqueKey(key, value)` applied to a
`{webProperties}` record. The filter predicate is
`wp[key] === webProperty[key]`, but the identifier `webProperty` is not
bound in any enclosing scope of this module-level function (the
reconciler's `webProperty` is local to `make`), so the first invocation of
the predicate throws ReferenceError. Over an empty list `filter` never
invokes the predicate and the function returns `{}`. A non-array
`webProperties` fails at `.filter` itself. The key and value arguments are
as in the source: value is never read, key only inside the throwing
predicate. -/
def findWebPropertyByUniqueKey (key value wps : Value) : Except JsErrorVal Value :=
  match wps with
  | .vArr .nil => .ok (vobj [])
  | .vArr (.cons _ _) => .error (.referenceError "webProperty")
  | _ => .error (.typeError "webProperties.filter is not a function")

def filterByKey (key value : Value) : VItems → Except JsErrorVal VItems
  | .nil => .ok .nil
  | .cons wp rest =>
    match getProp wp (jsKeyStr key) with
    | .error e => .error e
    | .ok kv =>
      match filterByKey key value rest with
      | .error e => .error e
      | .ok frest => .ok (if jsEq kv value then .cons wp frest else frest)

/-- gaApi.js:628-633 `findViewByUniqueKey(key, value)` applied to a
`{views}` record: filter by `wp[key] === value`, return `{view: first}` or
`{}`. (The reconciler passes the whole desired view object as `value`, so
against string key fields the strict equality can only be a reference
comparison.) -/
def findViewByUniqueKey (key value views : Value) : Except JsErrorVal Value :=
  match views with
  | .vArr items =>
    match filterByKey key value items with
    | .error e => .error e
    | .ok .nil => .ok (vobj [])
    | .ok (.cons v _) => .ok (vobj [("view", v)])
  | _ => .error (.typeError "views.filter is not a function")

/-!
The reconciler `make` (gaApi.js:635-851). The synchronous body destructures
the description, checks the account id, evaluates the stage guards on the
initial field values, and chains the stages onto one promise pipeline; the
stage callbacks then run in order, reading the current (possibly mutated)
tree and local `webPropertyId`. Resolution values of the operations are
modelled as the projected records the callbacks destructure (`from`/`to`
fields are dropped: no callback reads them).
-/

/-- gaApi.js:647-667, the unique-key branch of the web-property stage. -/
def branchUniqueKey (w : World) (accountId uniqueKey webProperty : Value) : M Value :=
  mBind (callRemote w (.getWebProperties accountId)) fun data =>
  mBind (mExcept (getProp data "items")) fun wps =>
  mBind (mExcept (findWebPropertyByUniqueKey uniqueKey webProperty wps)) fun found =>
  let pub := getF found "webProperty"
  mBind (mExcept (getProp pub "id")) fun pid =>
  mBind (mSetWpId pid) fun _ =>
  mBind (mModRef fun ref =>
    { ref with webPropertyId := pid, webProperty := setF ref.webProperty "id" pid }) fun _ =>
  mBind mGetRef fun ref =>
  if shouldBeChanged pub ref.webProperty then
    mBind (callRemote w (.patchWebProperty accountId ref.webPropertyId ref.webProperty)) fun d2 =>
    mPure (mkObj1 "webProperty" d2)
  else
    mPure (mkObj1 "webProperty" ref.webProperty)

/-- gaApi.js:668-680, the insert branch of the web-property stage. -/
def branchInsertWp (w : World) (accountId webProperty : Value) : M Value :=
  mBind (callRemote w (.insertWebProperty accountId webProperty)) fun data =>
  mBind (mExcept (getProp data "id")) fun nid =>
  mBind (mSetWpId nid) fun _ =>
  mBind (mModRef fun ref =>
    { ref with webPropertyId := nid, webProperty := setF ref.webProperty "id" nid }) fun _ =>
  mPure (mkObj1 "webProperty" data)

/-- gaApi.js:681-695, the known-id branch of the web-property stage. -/
def branchKnownId (w : World) (accountId wpId : Value) : M Value :=
  mBind (callRemote w (.getWebProperty accountId wpId)) fun pub =>
  mBind mGetRef fun ref =>
  if shouldBeChanged pub ref.webProperty then
    mBind (callRemote w (.patchWebProperty accountId ref.webPropertyId ref.webProperty)) fun d2 =>
    mPure (mkObj1 "webProperty" d2)
  else
    mPure (mkObj1 "webProperty" ref.webProperty)

/-- gaApi.js:701-721, one iteration of the customMetrics reduce: patch when
a remote metric exists at this index and the diff reports a change, insert
when none exists, otherwise no-op (`return true`). The id and 1-based index
are assigned into the tree before the call; after it, the id is overwritten
with the id the remote answer carries. -/
def metricPayload (metric : Value) (i : Nat) : Value :=
  setF (setF metric "id" (.vStr ("ga:metric" ++ natToStr (i + 1)))) "index"
    (.vNum (Int.ofNat (i + 1)))

def metricStep (w : World) (accountId existing : Value) (i : Nat) (metric : Value) : M Value :=
  mBind (mExcept (jsIndexE existing i)) fun e =>
  if truthy e && shouldBeChanged e metric then
    let m1 := metricPayload metric i
    mBind (mSetMetricAt i m1) fun _ =>
    mBind mGetWpId fun wpId =>
    mBind (callRemote w (.patchMetrics accountId wpId (getF m1 "id") m1)) fun data =>
    mBind (mExcept (getProp data "id")) fun nid =>
    mBind (mSetMetricAt i (setF m1 "id" nid)) fun _ =>
    mPure nid
  else if truthy e = false then
    let m1 := metricPayload metric i
    mBind (mSetMetricAt i m1) fun _ =>
    mBind mGetWpId fun wpId =>
    mBind (callRemote w (.insertMetrics accountId wpId m1)) fun data =>
    mBind (mExcept (getProp data "id")) fun nid =>
    mBind (mSetMetricAt i (setF m1 "id" nid)) fun _ =>
    mPure nid
  else
    mPure (.vBool true)

/-- The sequential fold of the customMetrics reduce; the pipe value is the
last iteration's value (`Promise.resolve()`, i.e. undefined, for an empty
list). -/
def metricsLoop (w : World) (accountId existing : Value) :
    Nat → List Value → Value → M Value
  | _, [], last => mPure last
  | i, metric :: rest, _ =>
    mBind (metricStep w accountId existing i metric) fun v =>
    metricsLoop w accountId existing (i + 1) rest v

/-- gaApi.js:696-724, the customMetrics stage. An empty array is truthy, so
the stage (and its getMetrics listing) runs whenever the field is present
as an array, even an empty one. -/
def stageMetrics (w : World) (accountId customMetrics : Value) (prev : Value) : M Value :=
  if truthy customMetrics then
    mBind mGetWpId fun wpId =>
    mBind (callRemote w (.getMetrics accountId wpId)) fun data =>
    mBind (mExcept (getProp data "items")) fun existing =>
    match customMetrics with
    | .vArr items => metricsLoop w accountId existing 0 (itemsToList items) .vUndefined
    | _ => mThrow (.typeError "customMetrics.reduce is not a function")
  else
    mPure prev

/-- gaApi.js:732-753, one iteration of the customDimensions reduce —
the same algorithm as `metricStep` with the "ga:dimension" id pattern. -/
def dimensionPayload (dimension : Value) (i : Nat) : Value :=
  setF (setF dimension "id" (.vStr ("ga:dimension" ++ natToStr (i + 1)))) "index"
    (.vNum (Int.ofNat (i + 1)))

def dimensionStep (w : World) (accountId existing : Value) (i : Nat) (dimension : Value) : M Value :=
  mBind (mExcept (jsIndexE existing i)) fun e =>
  if truthy e && shouldBeChanged e dimension then
    let d1 := dimensionPayload dimension i
    mBind (mSetDimAt i d1) fun _ =>
    mBind mGetWpId fun wpId =>
    mBind (callRemote w (.patchDimensions accountId wpId (getF d1 "id") d1)) fun data =>
    mBind (mExcept (getProp data "id")) fun nid =>
    mBind (mSetDimAt i (setF d1 "id" nid)) fun _ =>
    mPure nid
  else if truthy e = false then
    let d1 := dimensionPayload dimension i
    mBind (mSetDimAt i d1) fun _ =>
    mBind mGetWpId fun wpId =>
    mBind (callRemote w (.insertDimensions accountId wpId d1)) fun data =>
    mBind (mExcept (getProp data "id")) fun nid =>
    mBind (mSetDimAt i (setF d1 "id" nid)) fun _ =>
    mPure nid
  else
    mPure (.vBool true)

def dimensionsLoop (w : World) (accountId existing : Value) :
    Nat → List Value → Value → M Value
  | _, [], last => mPure last
  | i, dimension :: rest, _ =>
    mBind (dimensionStep w accountId existing i dimension) fun v =>
    dimensionsLoop w accountId existing (i + 1) rest v

/-- gaApi.js:725-758, the customDimensions stage. -/
def stageDims (w : World) (accountId customDimensions : Value) (prev : Value) : M Value :=
  if truthy customDimensions then
    mBind mGetWpId fun wpId =>
    mBind (callRemote w (.getDimensions accountId wpId)) fun data =>
    mBind (mExcept (getProp data "items")) fun existing =>
    match customDimensions with
    | .vArr items => dimensionsLoop w accountId existing 0 (itemsToList items) .vUndefined
    | _ => mThrow (.typeError "customDimensions.reduce is not a function")
  else
    mPure prev

/-- gaApi.js:767, the parameter destructure
`({ views: existingViews = [] } = {})`: an undefined pipe value falls back
to `{}`, whose `views` field is undefined, so the `[]` default applies;
null cannot be destructured; otherwise the `views` field, defaulted to `[]`
when undefined. -/
def destructViewsDefault (prev : Value) : Except JsErrorVal Value :=
  match prev with
  | .vUndefined => .ok (varr [])
  | .vNull => .error (.typeError "Cannot destructure views of null")
  | v => .ok (match getF v "views" with | .vUndefined => varr [] | x => x)

def mapIds : VItems → Except JsErrorVal (List Value)
  | .nil => .ok []
  | .cons v rest =>
    match getProp v "id" with
    | .error e => .error e
    | .ok i =>
      match mapIds rest with
      | .error e => .error e
      | .ok l => .ok (i :: l)

/-- The lookup `ids.indexOf(view.id)` — first strict-equality match. -/
def idIndexOf : List Value → Value → Option Nat
  | [], _ => none
  | x :: rest, target =>
    if jsEq x target then some 0
    else match idIndexOf rest target with
      | some j => some (j + 1)
      | none => none

/-- gaApi.js:766-799, the identity-resolution part of one views-stage
iteration. A view with no id and a unique key runs `findViewByUniqueKey`
(result unused) and resolves with undefined (the bare `return;`); a view
with neither is inserted and its id recorded; a view with an id is looked
up among the listed views by id and patched when the diff reports a change
(not-found and unchanged resolve without a call). -/
def viewPart1 (w : World) (accountId : Value) (idx : Nat) (prev : Value) : M Value :=
  mBind (mExcept (destructViewsDefault prev)) fun existingViews =>
  mBind (mGetViewAt idx) fun view =>
  mBind (mExcept (getProp view "id")) fun vid =>
  if truthy vid = false then
    mBind (mExcept (getProp view "uniqueKey")) fun uk =>
    if truthy uk then
      mBind (mExcept (findViewByUniqueKey uk view existingViews)) fun _found =>
      mPure .vUndefined
    else
      mBind mGetWpId fun wpId =>
      mBind (callRemote w (.insertView accountId wpId view)) fun data =>
      mBind (mExcept (getProp data "id")) fun nid =>
      mBind (mSetViewAt idx (setF view "id" nid)) fun _ =>
      mPure (mkObj1 "views" existingViews)
  else
    match existingViews with
    | .vArr items =>
      mBind (mExcept (mapIds items)) fun ids =>
      (match idIndexOf ids vid with
       | some j =>
         let foundExistingView := itemsGet items j
         if shouldBeChanged foundExistingView view then
           mBind mGetWpId fun wpId =>
           mBind (callRemote w (.patchView accountId wpId vid view)) fun _ =>
           mPure (mkObj1 "views" existingViews)
         else
           mPure (mkObj1 "views" existingViews)
       | none => mPure (mkObj1 "views" existingViews))
    | _ => mThrow (.typeError "existingViews.map is not a function")

/-- gaApi.js:812-840, one iteration of the goals reduce: the same
positional algorithm as metrics/dimensions, with a plain 1-based integer
id. -/
def goalStep (w : World) (accountId : Value) (viewIdx gIdx : Nat) (goal : Value) (prev : Value) :
    M Value :=
  mBind (mExcept (getProp prev "goals")) fun existingGoals =>
  mBind (mExcept (jsIndexE existingGoals gIdx)) fun e =>
  if truthy e && shouldBeChanged e goal then
    let g1 := setF goal "id" (.vNum (Int.ofNat (gIdx + 1)))
    mBind (mSetGoalAt viewIdx gIdx g1) fun _ =>
    mBind (mGetViewAt viewIdx) fun view =>
    mBind (mExcept (getProp view "id")) fun pid =>
    mBind mGetWpId fun wpId =>
    mBind (callRemote w (.patchGoal accountId wpId pid (getF g1 "id") g1)) fun data =>
    mBind (mExcept (getProp data "id")) fun nid =>
    mBind (mSetGoalAt viewIdx gIdx (setF g1 "id" nid)) fun _ =>
    mPure (mkObj1 "goals" existingGoals)
  else if truthy e = false then
    let g1 := setF goal "id" (.vNum (Int.ofNat (gIdx + 1)))
    mBind (mSetGoalAt viewIdx gIdx g1) fun _ =>
    mBind (mGetViewAt viewIdx) fun view =>
    mBind (mExcept (getProp view "id")) fun pid =>
    mBind mGetWpId fun wpId =>
    mBind (callRemote w (.insertGoal accountId wpId pid g1)) fun data =>
    mBind (mExcept (getProp data "id")) fun nid =>
    mBind (mSetGoalAt viewIdx gIdx (setF g1 "id" nid)) fun _ =>
    mPure (mkObj1 "goals" existingGoals)
  else
    mPure (mkObj1 "goals" existingGoals)

def goalsLoop (w : World) (accountId : Value) (viewIdx : Nat) :
    Nat → List Value → Value → M Value
  | _, [], prev => mPure prev
  | gIdx, goal :: rest, prev =>
    mBind (goalStep w accountId viewIdx gIdx goal prev) fun v =>
    goalsLoop w accountId viewIdx (gIdx + 1) rest v

/-- gaApi.js:800-843, the goals part of one views-stage iteration: the
incoming `{views: existingViews}` record is destructured (no default — an
undefined value from the unique-key branch throws here), remote goals are
listed once when any goal is declared, the positional fold runs, and the
iteration resolves with `{views: existingViews}` again. -/
def viewPart2 (w : World) (accountId : Value) (idx : Nat) (goals : List Value) (v1 : Value) :
    M Value :=
  mBind (mExcept (getProp v1 "views")) fun existingViews =>
  match goals with
  | [] => mPure (mkObj1 "views" existingViews)
  | _ =>
    mBind (mGetViewAt idx) fun view =>
    mBind (mExcept (getProp view "id")) fun pid =>
    mBind mGetWpId fun wpId =>
    mBind (callRemote w (.getGoals accountId wpId pid)) fun gdata =>
    mBind (mExcept (getProp gdata "items")) fun gitems =>
    mBind (goalsLoop w accountId idx 0 goals (mkObj1 "goals" gitems)) fun _ =>
    mPure (mkObj1 "views" existingViews)

/-- gaApi.js:844-847, the filters part of one views-stage iteration:
filters are never compared or pushed; the value is destructured and passed
on unchanged. -/
def viewPart3 (v2 : Value) : M Value :=
  mBind (mExcept (getProp v2 "views")) fun existingViews =>
  mPure (mkObj1 "views" existingViews)

def viewStep (w : World) (accountId : Value) (idx : Nat) (entry : ViewEntry) (prev : Value) :
    M Value :=
  mBind (viewPart1 w accountId idx prev) fun v1 =>
  mBind (viewPart2 w accountId idx entry.goals v1) fun v2 =>
  viewPart3 v2

def viewsLoop (w : World) (accountId : Value) :
    Nat → List ViewEntry → Value → M Value
  | _, [], prev => mPure prev
  | idx, entry :: rest, prev =>
    mBind (viewStep w accountId idx entry prev) fun v =>
    viewsLoop w accountId (idx + 1) rest v

/-- gaApi.js:759-848, the views stage: when any view declares an id or a
unique key, the existing views are listed once and the listing's value
feeds the first iteration; otherwise the previous stage's value does (its
`views` destructure then defaults to `[]`). -/
def stageViews (w : World) (accountId : Value) (views : List ViewEntry)
    (hasUnique hasId : Bool) (prev : Value) : M Value :=
  match views with
  | [] => mPure prev
  | _ =>
    mBind
      (if hasUnique || hasId then
        mBind mGetWpId fun wpId =>
        mBind (callRemote w (.getViews accountId wpId)) fun data =>
        mBind (mExcept (getProp data "items")) fun items =>
        mPure (mkObj1 "views" items)
      else mPure prev) fun v0 =>
    viewsLoop w accountId 0 views v0

/-- gaApi.js:760 `views.reduce((r, {view}) => r || view.uniqueKey, false)`:
`||` keeps the first truthy value. -/
def viewsHasUnique : List ViewEntry → Value → Except JsErrorVal Value
  | [], r => .ok r
  | e :: rest, r =>
    if truthy r then viewsHasUnique rest r
    else match getProp e.view "uniqueKey" with
      | .error err => .error err
      | .ok uk => viewsHasUnique rest uk

/-- gaApi.js:761 `views.reduce((r, {view}) => r || !!view.id, false)`. -/
def viewsHasId : List ViewEntry → Value → Except JsErrorVal Value
  | [], r => .ok r
  | e :: rest, r =>
    if truthy r then viewsHasId rest r
    else match getProp e.view "id" with
      | .error err => .error err
      | .ok vid => viewsHasId rest (.vBool (truthy vid))

/-- Observable outcome of one reconciliation run: the settled value or
rejection of the pipeline, the final description tree, and the ordered
trace of remote calls. -/
structure MakeResult where
  result : Except JsErrorVal Value
  ref : RefObject
  trace : List RemoteCall

/-- gaApi.js:635-851 `make({oauth2Client, referenceObject})` against a
world. The missing-account check evaluates `new ServiceError(412, ...)`,
but `ServiceError` is bound nowhere in gaApi.js — line 9 destructures
`insertServiceError` (which errors.js does not export) instead of
`ServiceError` — so the expression throws ReferenceError before the
rejected promise can be built, and no remote call is issued. The stage
guards are evaluated synchronously on the initial destructured fields
(`webProperty.uniqueKey` only when `webPropertyId` is falsy, the view
id/uniqueKey flags only when the views list is non-empty); a synchronous
throw from a guard also precedes every remote call. The stages then run
sequentially on the pipeline state. -/
def ukGuard (ro : RefObject) : Except JsErrorVal Value :=
  if truthy ro.webPropertyId then .ok .vUndefined else getProp ro.webProperty "uniqueKey"

/-- gaApi.js:759-761: when the views list is non-empty, the two flag
reduces run synchronously over the initial view objects (a nullish view
throws here, before any remote call). -/
def viewFlags (views : List ViewEntry) : Except JsErrorVal (Bool × Bool) :=
  match views with
  | [] => .ok (false, false)
  | _ =>
    match viewsHasUnique views (.vBool false) with
    | .error e => .error e
    | .ok hu =>
      match viewsHasId views (.vBool false) with
      | .error e => .error e
      | .ok hi => .ok (truthy hu, truthy hi)

/-- The promise pipeline `make` assembles: exactly one of the three
web-property branches — chosen on the initial `webPropertyId` and
`webProperty.uniqueKey` values, since the stage guards run synchronously
before any callback mutates them — then the metric, dimension and view
stages in order, each threading the previous stage's resolution value. -/
def makePipeline (w : World) (ro : RefObject) (uk : Value) (hasUnique hasId : Bool) : M Value :=
  mBind
    (if truthy ro.webPropertyId then branchKnownId w ro.accountId ro.webPropertyId
     else if truthy uk then branchUniqueKey w ro.accountId uk ro.webProperty
     else branchInsertWp w ro.accountId ro.webProperty) fun v1 =>
  mBind (stageMetrics w ro.accountId ro.customMetrics v1) fun v2 =>
  mBind (stageDims w ro.accountId ro.customDimensions v2) fun v3 =>
  stageViews w ro.accountId ro.views hasUnique hasId v3

/-- gaApi.js:635-851 `make({oauth2Client, referenceObject})` against a
world. The missing-account check evaluates `new ServiceError(412, ...)`,
but `ServiceError` is bound nowhere in gaApi.js — line 9 destructures
`insertServiceError` (which errors.js does not export) instead of
`ServiceError` — so the expression throws ReferenceError before the
rejected promise can be built, and no remote call is issued. The stage
guards are evaluated synchronously on the initial destructured fields
(`webProperty.uniqueKey` only when `webPropertyId` is falsy, the view
id/uniqueKey flags only when the views list is non-empty); a synchronous
throw from a guard also precedes every remote call. The stages then run
sequentially on the pipeline state. -/
def makeRun (w : World) (referenceObject : RefObject) : MakeResult :=
  if truthy referenceObject.accountId = false then
    ⟨.error (.referenceError "ServiceError"), referenceObject, []⟩
  else
    match ukGuard referenceObject with
    | .error e => ⟨.error e, referenceObject, []⟩
    | .ok uk =>
      match viewFlags referenceObject.views with
      | .error e => ⟨.error e, referenceObject, []⟩
      | .ok (hasUnique, hasId) =>
        match makePipeline w referenceObject uk hasUnique hasId
          ⟨0, [], referenceObject, referenceObject.webPropertyId⟩ with
        | (r, s) => ⟨r, s.ref, s.trace⟩

/-!
Concrete descriptions and worlds used by the claim theorems.
-/

def descC7 : RefObject :=
  ⟨.vNum 42,
   vobj [("name", .vStr "A"), ("websiteUrl", .vStr "http://a")],
   .vUndefined,
   varr [], varr [], []⟩

def wC7 : World := fun _ c =>
  match c with
  | .insertWebProperty _ wp => .ok (setF wp "id" (.vStr "WP1"))
  | .getMetrics _ _ => .ok (mkObj1 "items" (varr []))
  | .getDimensions _ _ => .ok (mkObj1 "items" (varr []))
  | _ => .ok (vobj [])


def descNoAcc : RefObject :=
  ⟨.vUndefined, vobj [("name", .vStr "A")], .vUndefined, varr [], varr [], []⟩

def descC9 : RefObject :=
  ⟨.vNum 1,
   vobj [("uniqueKey", .vStr "name"), ("name", .vStr "A")],
   .vUndefined, .vUndefined, .vUndefined, []⟩

def wC9 : World := fun _ c =>
  match c with
  | .getWebProperties _ =>
    .ok (mkObj1 "items" (varr [vobj [("id", .vStr "W9"), ("name", .vStr "A")]]))
  | _ => .ok (vobj [])

def wC9e : World := fun _ c =>
  match c with
  | .getWebProperties _ => .ok (mkObj1 "items" (varr []))
  | _ => .ok (vobj [])

/-!
Theorems for the claims.
-/

/-- An operation that rejects with a distinct transient-classified error on
every attempt (the tag is the 0-based attempt index). -/
def alwaysTransient : Nat → Except JsErrorVal Value := fun i => .error (transientErr i)

/-- C2 is false as stated: MAX_TIMEOUT_COUNT = 10 bounds the number of
retries, not of attempts. Against an operation that rejects with a
transient-classified error on every attempt, backOff invokes the operation
11 times (not 10), and the error that propagates is the 11th attempt's
(tag 10), not the 10th's (tag 9). -/
theorem c2_counterexample :
    backOff alwaysTransient =
      ⟨.error (transientErr 10),
       [100, 200, 400, 800, 1600, 3200, 6400, 12800, 25600, 51200], 11⟩ ∧
    transientErr 10 ≠ transientErr 9 ∧ (11 : Nat) ≠ 10 :=
  ⟨rfl, by decide, by norm_num⟩

/-- C2 (amended): for every operation rejecting with transient-classified
errors on each of the first 11 attempts, backOff stops after 11 consecutive
transient errors — the initial attempt plus MAX_TIMEOUT_COUNT = 10 retries
with delays 100, 200, ..., 51200 — and the 11th attempt's error propagates
unchanged, with no 12th invocation of the underlying operation. -/
theorem c2_amended (fn : Nat → Except JsErrorVal α) (errs : Nat → JsErrorVal)
    (h : ∀ i, i ≤ 10 → fn i = .error (errs i))
    (ht : ∀ i, i ≤ 10 → isTransientError (errs i) = true) :
    backOff fn =
      ⟨.error (errs 10),
       [100, 200, 400, 800, 1600, 3200, 6400, 12800, 25600, 51200], 11⟩ := by
  simp only [backOff, tryOnce, MAX_TIMEOUT_COUNT, START_TIMEOUT_TIME, Nat.sub_zero, tryOnceGo,
    h 0 (by norm_num), h 1 (by norm_num), h 2 (by norm_num), h 3 (by norm_num),
    h 4 (by norm_num), h 5 (by norm_num), h 6 (by norm_num), h 7 (by norm_num),
    h 8 (by norm_num), h 9 (by norm_num), h 10 (by norm_num),
    ht 0 (by norm_num), ht 1 (by norm_num), ht 2 (by norm_num), ht 3 (by norm_num),
    ht 4 (by norm_num), ht 5 (by norm_num), ht 6 (by norm_num), ht 7 (by norm_num),
    ht 8 (by norm_num), ht 9 (by norm_num), ht 10 (by norm_num)]
  norm_num

/-- Witness for the amended C2 at the concrete always-transient operation. -/
theorem c2_amended_witness :
    (∀ i, i ≤ 10 → alwaysTransient i = .error (transientErr i)) ∧
    (∀ i, i ≤ 10 → isTransientError (transientErr i) = true) ∧
    backOff alwaysTransient =
      ⟨.error (transientErr 10),
       [100, 200, 400, 800, 1600, 3200, 6400, 12800, 25600, 51200], 11⟩ :=
  ⟨fun _ _ => rfl, fun _ _ => rfl,
   c2_amended alwaysTransient transientErr (fun _ _ => rfl) (fun _ _ => rfl)⟩

/-- C5: an operation rejecting with transient-classified errors on attempts
1-3 and succeeding on attempt 4 is retried exactly 3 times, after delays of
100, 200 and 400 in that order, and the unmodified success value of the 4th
attempt is returned (attempts = 4, i.e. 3 retries). -/
theorem c5_retry_timing (fn : Nat → Except JsErrorVal α) (v : α)
    (h : ∀ i, i < 3 → ∃ e, fn i = .error e ∧ isTransientError e = true)
    (h3 : fn 3 = .ok v) :
    backOff fn = ⟨.ok v, [100, 200, 400], 4⟩ := by
  obtain ⟨e0, f0, t0⟩ := h 0 (by norm_num)
  obtain ⟨e1, f1, t1⟩ := h 1 (by norm_num)
  obtain ⟨e2, f2, t2⟩ := h 2 (by norm_num)
  simp only [backOff, tryOnce, MAX_TIMEOUT_COUNT, START_TIMEOUT_TIME, Nat.sub_zero, tryOnceGo,
    f0, f1, f2, t0, t1, t2, h3]
  norm_num

/-- An operation with transient rejections on attempts 1-3 and success on
attempt 4. -/
def threeThenOk : Nat → Except JsErrorVal Value := fun i =>
  if i < 3 then .error (transientErr i) else .ok (.vStr "ok")

/-- Witness for C5 at a concrete operation. -/
theorem c5_retry_timing_witness :
    (∀ i, i < 3 → ∃ e, threeThenOk i = .error e ∧ isTransientError e = true) ∧
    threeThenOk 3 = .ok (.vStr "ok") ∧
    backOff threeThenOk = ⟨.ok (.vStr "ok"), [100, 200, 400], 4⟩ :=
  ⟨fun i hi => ⟨transientErr i, by simp [threeThenOk, hi], rfl⟩, rfl,
   c5_retry_timing threeThenOk (.vStr "ok")
     (fun i hi => ⟨transientErr i, by simp [threeThenOk, hi], rfl⟩) rfl⟩

/-- C1: a description whose account id is missing (falsy) makes `make` fail
immediately, before any remote call (the trace is empty and the tree is
untouched) — but with a ReferenceError, not a ValidationError carrying
status 412: gaApi.js:645 evaluates `new ServiceError(412, ...)` while the
identifier `ServiceError` is bound nowhere in gaApi.js (line 9 destructures
`insertServiceError`, which errors.js does not export, instead of
`ServiceError`), so the expression throws. The second conjunct records that
the thrown value is not a ServiceError of any status. -/
theorem c1_missing_account (w : World) (ro : RefObject)
    (h : truthy ro.accountId = false) :
    makeRun w ro = ⟨.error (.referenceError "ServiceError"), ro, []⟩ ∧
    ∀ status msg, (JsErrorVal.referenceError "ServiceError") ≠ .serviceError status msg := by
  refine ⟨by simp [makeRun, h], ?_⟩
  intro status msg hh
  exact JsErrorVal.noConfusion hh

/-- Witness for C1 at a concrete account-less description. -/
theorem c1_missing_account_witness :
    truthy descNoAcc.accountId = false ∧
    makeRun wC7 descNoAcc = ⟨.error (.referenceError "ServiceError"), descNoAcc, []⟩ :=
  ⟨rfl, (c1_missing_account wC7 descNoAcc rfl).1⟩

/-- C4: `shouldBeChanged` does not compare list-typed fields by length. The
`typeof target[k] === 'array'` branch is unreachable (JavaScript `typeof`
never yields "array"; first conjunct), so an array field falls into the
recursive object branch and is compared element by element: two
single-element lists (equal length, second conjunct) with different content
make the evaluator report that a patch is required (third conjunct),
contradicting the claimed length-only comparison. -/
theorem c4_lists_compared_by_content :
    (∀ v : Value, typeofV v ≠ "array") ∧
    lengthProp (varr [.vStr "b"]) = lengthProp (varr [.vStr "a"]) ∧
    shouldBeChanged (vobj [("xs", varr [.vStr "b"])]) (vobj [("xs", varr [.vStr "a"])]) = true :=
  ⟨fun v => by cases v <;> simp [typeofV], rfl, by decide⟩

/-- C7 is false as stated: on the claimed scenario the insert-web-property
call does happen exactly once and first, but the metrics and dimensions
stages still issue their listing calls — an empty array is truthy, so
`if (customMetrics)` and `if (customDimensions)` both pass — hence remote
metric and dimension calls do occur. -/
theorem c7_counterexample :
    (makeRun wC7 descC7).trace =
      [.insertWebProperty (.vNum 42) (vobj [("name", .vStr "A"), ("websiteUrl", .vStr "http://a")]),
       .getMetrics (.vNum 42) (.vStr "WP1"),
       .getDimensions (.vNum 42) (.vStr "WP1")] ∧
    RemoteCall.getMetrics (.vNum 42) (.vStr "WP1") ∈ (makeRun wC7 descC7).trace ∧
    RemoteCall.getDimensions (.vNum 42) (.vStr "WP1") ∈ (makeRun wC7 descC7).trace := by
  exact ⟨rfl, by decide, by decide⟩

/-- C7 (amended): on the claimed scenario exactly one insert-web-property
call occurs, its returned id is written into the tree (webPropertyId and
webProperty.id), no dimension/metric/view mutation (insert or patch) and no
view call occurs — but the metrics and dimensions stages each issue their
single listing call (getMetrics, getDimensions), because empty arrays are
truthy. -/
theorem c7_amended :
    (makeRun wC7 descC7).trace =
      [.insertWebProperty (.vNum 42) (vobj [("name", .vStr "A"), ("websiteUrl", .vStr "http://a")]),
       .getMetrics (.vNum 42) (.vStr "WP1"),
       .getDimensions (.vNum 42) (.vStr "WP1")] ∧
    (makeRun wC7 descC7).ref.webPropertyId = .vStr "WP1" ∧
    getF (makeRun wC7 descC7).ref.webProperty "id" = .vStr "WP1" ∧
    (makeRun wC7 descC7).result = .ok .vUndefined :=
  ⟨rfl, rfl, rfl, rfl⟩

/-- C9: the unique-key branch of the web-property stage can never adopt an
id. The filter predicate inside `findWebPropertyByUniqueKey` dereferences
the unbound identifier `webProperty`, so with a non-empty remote listing
the run rejects with ReferenceError right after the single
getWebProperties call, the tree is left untouched and no id is adopted;
with an empty listing the find returns `{}` and the continuation throws
TypeError dereferencing `.id` of undefined. -/
theorem c9_unique_key_lookup_crashes :
    makeRun wC9 descC9 =
      ⟨.error (.referenceError "webProperty"), descC9, [.getWebProperties (.vNum 1)]⟩ ∧
    makeRun wC9e descC9 =
      ⟨.error (.typeError "Cannot read properties of undefined (reading id)"), descC9,
       [.getWebProperties (.vNum 1)]⟩ :=
  ⟨rfl, rfl⟩

/-- A raw transient rejection as the Google transport produces it: response
status 403 with a rate-limit reason in the `errors` list. -/
def rawTransient : RawApiError :=
  ⟨403, "Rate Limit Exceeded", "rateLimitExceeded",
   varr [vobj [("reason", .vStr "rateLimitExceeded")]]⟩

/-- A world identical to `wC7` except that the very first remote invocation
rejects with `rawTransient`. -/
def wC6 : World := fun n c => if n = 0 then .error rawTransient else wC7 n c

/-- An operation whose raw rejection is transient on the first attempt and
that succeeds on the second — as `backOff` would see it if it inspected the
raw error. -/
def rawOnceOp : Nat → Except JsErrorVal Value := fun i =>
  if i = 0 then .error (.plainError rawTransient.errors 0) else .ok (.vStr "ok")

/-- C6 is false as stated: remote calls issued by `make` are not subject to
the exponential-backoff retry policy. The first remote invocation rejects
with a transient-classified raw error (first conjunct: backOff's own
classifier marks it transient; second conjunct: backOff absorbs exactly
such a one-off rejection with a single 100-unit delay). Yet `make` run
against a world whose sole fault is that one transient first rejection
rejects immediately with the wrapped GoogleAnalyticsError after exactly one
remote invocation — no retry, no delay, no absorption. -/
theorem c6_counterexample :
    isTransientError (.plainError rawTransient.errors 0) = true ∧
    backOff rawOnceOp = ⟨.ok (.vStr "ok"), [100], 2⟩ ∧
    (makeRun wC6 descC7).result =
      .error (.gaError 403 "Rate Limit Exceeded" "403-rateLimitExceeded" "rateLimitExceeded") ∧
    (makeRun wC6 descC7).trace =
      [.insertWebProperty (.vNum 42) (vobj [("name", .vStr "A"), ("websiteUrl", .vStr "http://a")])] :=
  ⟨rfl, rfl, rfl, rfl⟩

/-- C6 (amended): the export table wraps every resource operation in
backOff, but `make` invokes the module-local unwrapped functions, so a
transient rejection of a remote call propagates (wrapped as
GoogleAnalyticsError) after a single invocation, with no retry (first two
conjuncts). Moreover, even the exported backOff-wrapped operations cannot
retry: each operation converts its rejection into a GoogleAnalyticsError,
which carries no `errors` list, so backOff never classifies it as transient
(third conjunct) and propagates it after one attempt with no delay (fourth
conjunct). -/
theorem c6_amended :
    (makeRun wC6 descC7).result =
      .error (.gaError 403 "Rate Limit Exceeded" "403-rateLimitExceeded" "rateLimitExceeded") ∧
    (makeRun wC6 descC7).trace.length = 1 ∧
    (∀ r : RawApiError, isTransientError (wrapGA r) = false) ∧
    (∀ (r : RawApiError) (op : Nat → Except JsErrorVal Value),
      (∀ n, op n = .error (wrapGA r)) → backOff op = ⟨.error (wrapGA r), [], 1⟩) := by
  refine ⟨rfl, rfl, fun r => rfl, fun r op h => ?_⟩
  simp only [backOff, tryOnce, MAX_TIMEOUT_COUNT, START_TIMEOUT_TIME, Nat.sub_zero,
    tryOnceGo, h 0]
  simp [isTransientError, wrapGA, errorsField, truthy]

/-- Witness for the amended C6 at a concrete constantly-rejecting wrapped
operation. -/
theorem c6_amended_witness :
    (∀ n : Nat, (fun _ : Nat => (.error (wrapGA rawTransient) : Except JsErrorVal Value)) n =
      .error (wrapGA rawTransient)) ∧
    backOff (fun _ => (.error (wrapGA rawTransient) : Except JsErrorVal Value)) =
      ⟨.error (wrapGA rawTransient), [], 1⟩ :=
  ⟨fun _ => rfl, c6_amended.2.2.2 rawTransient (fun _ : Nat => .error (wrapGA rawTransient)) (fun _ => rfl)⟩

/-!
Helper lemmas for the positional metric/dimension/goal stages.
-/

theorem fieldLookup_fieldSet_self : ∀ (fs : VFields) (k : String) (x : Value),
    fieldLookup (fieldSet fs k x) k = x
  | .nil, k, x => by simp [fieldSet, fieldLookup]
  | .cons k2 v rest, k, x => by
    by_cases h : k2 = k
    · simp [fieldSet, fieldLookup, h]
    · simp [fieldSet, fieldLookup, h, fieldLookup_fieldSet_self rest k x]

theorem fieldLookup_fieldSet_ne : ∀ (fs : VFields) (k k2 : String) (x : Value), k ≠ k2 →
    fieldLookup (fieldSet fs k x) k2 = fieldLookup fs k2
  | .nil, k, k2, x, h => by
    simp only [fieldSet, fieldLookup]
    rw [if_neg h]
  | .cons k3 v rest, k, k2, x, h => by
    by_cases h2 : k3 = k
    · subst h2
      simp only [fieldSet, if_pos rfl, fieldLookup]
      rw [if_neg h, if_neg h]
    · simp only [fieldSet, if_neg h2, fieldLookup]
      by_cases h3 : k3 = k2
      · rw [if_pos h3, if_pos h3]
      · rw [if_neg h3, if_neg h3, fieldLookup_fieldSet_ne rest k k2 x h]

/-- The id assigned into a metric payload survives the subsequent index
assignment. -/
theorem getF_metricPayload_id (fs : VFields) (i : Nat) :
    getF (metricPayload (.vObj fs) i) "id" = .vStr ("ga:metric" ++ natToStr (i + 1)) := by
  simp [metricPayload, setF, getF, fieldLookup_fieldSet_ne _ "index" "id" _ (by decide),
    fieldLookup_fieldSet_self]

theorem getF_dimensionPayload_id (fs : VFields) (i : Nat) :
    getF (dimensionPayload (.vObj fs) i) "id" = .vStr ("ga:dimension" ++ natToStr (i + 1)) := by
  simp [dimensionPayload, setF, getF, fieldLookup_fieldSet_ne _ "index" "id" _ (by decide),
    fieldLookup_fieldSet_self]

/-- A computation that never touches the trace. -/
def PreservesTrace (x : M α) : Prop := ∀ s : MSt, ((x s).2).trace = s.trace

theorem preserves_mPure (a : α) : PreservesTrace (mPure a) := fun _ => rfl
theorem preserves_mThrow (e : JsErrorVal) : PreservesTrace (mThrow e : M α) := fun _ => rfl
theorem preserves_mExcept (x : Except JsErrorVal α) : PreservesTrace (mExcept x) := fun _ => rfl
theorem preserves_mModRef (f : RefObject → RefObject) : PreservesTrace (mModRef f) := fun _ => rfl
theorem preserves_mSetMetricAt (i : Nat) (m : Value) : PreservesTrace (mSetMetricAt i m) := fun _ => rfl
theorem preserves_mSetDimAt (i : Nat) (d : Value) : PreservesTrace (mSetDimAt i d) := fun _ => rfl
theorem preserves_mSetGoalAt (vi gi : Nat) (g : Value) : PreservesTrace (mSetGoalAt vi gi g) := fun _ => rfl
theorem preserves_mSetViewAt (i : Nat) (v : Value) : PreservesTrace (mSetViewAt i v) := fun _ => rfl

theorem preserves_mBind {x : M α} {f : α → M β} (hx : PreservesTrace x)
    (hf : ∀ a, PreservesTrace (f a)) : PreservesTrace (mBind x f) := by
  intro s
  unfold mBind
  cases hxs : x s with
  | mk r s1 =>
    have h1 : s1.trace = s.trace := by
      have := hx s
      rw [hxs] at this
      exact this
    cases r with
    | ok a => simpa [h1] using hf a s1
    | error e => simpa using h1

/-- The trace after a remote call followed by a trace-preserving
continuation: exactly the call is appended, whatever the world answers. -/
theorem trace_after_call (w : World) (c : RemoteCall) (k : Value → M α)
    (hk : ∀ a, PreservesTrace (k a)) (s : MSt) :
    ((mBind (callRemote w c) k) s).2.trace = s.trace ++ [c] := by
  unfold mBind callRemote
  cases hw : (w s.callIdx c).mapError wrapGA with
  | ok a =>
    simpa [hw] using hk a { s with callIdx := s.callIdx + 1, trace := s.trace ++ [c] }
  | error e => simp [hw]

theorem preserves_metricWriteback (i : Nat) (m1 : Value) :
    ∀ data : Value, PreservesTrace (mBind (mExcept (getProp data "id")) (fun nid =>
      mBind (mSetMetricAt i (setF m1 "id" nid)) (fun _ => mPure nid))) := fun data =>
  preserves_mBind (preserves_mExcept _) (fun nid =>
    preserves_mBind (preserves_mSetMetricAt _ _) (fun _ => preserves_mPure _))

theorem preserves_dimWriteback (i : Nat) (d1 : Value) :
    ∀ data : Value, PreservesTrace (mBind (mExcept (getProp data "id")) (fun nid =>
      mBind (mSetDimAt i (setF d1 "id" nid)) (fun _ => mPure nid))) := fun data =>
  preserves_mBind (preserves_mExcept _) (fun nid =>
    preserves_mBind (preserves_mSetDimAt _ _) (fun _ => preserves_mPure _))

theorem metricStep_patch (w : World) (a ex : Value) (i : Nat) (m : Value) (s : MSt) (e : Value)
    (he : jsIndexE ex i = .ok e) (ht : truthy e = true) (hc : shouldBeChanged e m = true) :
    ((metricStep w a ex i m) s).2.trace =
      s.trace ++ [.patchMetrics a s.webPropertyId (getF (metricPayload m i) "id")
        (metricPayload m i)] := by
  unfold metricStep
  simp only [mBind, mExcept, he, ht, hc, Bool.and_self, if_true]
  simp only [mSetMetricAt, mModRef, mGetWpId]
  exact trace_after_call w _ _ (preserves_metricWriteback i (metricPayload m i)) _

theorem metricStep_insert (w : World) (a ex : Value) (i : Nat) (m : Value) (s : MSt) (e : Value)
    (he : jsIndexE ex i = .ok e) (ht : truthy e = false) :
    ((metricStep w a ex i m) s).2.trace =
      s.trace ++ [.insertMetrics a s.webPropertyId (metricPayload m i)] := by
  unfold metricStep
  simp only [mBind, mExcept, he, ht, Bool.false_and, if_neg, Bool.false_eq_true,
    not_false_iff, if_true, if_pos]
  simp only [mSetMetricAt, mModRef, mGetWpId]
  exact trace_after_call w _ _ (preserves_metricWriteback i (metricPayload m i)) _

theorem metricStep_noop (w : World) (a ex : Value) (i : Nat) (m : Value) (s : MSt) (e : Value)
    (he : jsIndexE ex i = .ok e) (ht : truthy e = true) (hc : shouldBeChanged e m = false) :
    (metricStep w a ex i m) s = (.ok (.vBool true), s) := by
  unfold metricStep
  simp [mBind, mExcept, he, ht, hc, mPure]

theorem dimensionStep_patch (w : World) (a ex : Value) (i : Nat) (d : Value) (s : MSt) (e : Value)
    (he : jsIndexE ex i = .ok e) (ht : truthy e = true) (hc : shouldBeChanged e d = true) :
    ((dimensionStep w a ex i d) s).2.trace =
      s.trace ++ [.patchDimensions a s.webPropertyId (getF (dimensionPayload d i) "id")
        (dimensionPayload d i)] := by
  unfold dimensionStep
  simp only [mBind, mExcept, he, ht, hc, Bool.and_self, if_true]
  simp only [mSetDimAt, mModRef, mGetWpId]
  exact trace_after_call w _ _ (preserves_dimWriteback i (dimensionPayload d i)) _

theorem dimensionStep_insert (w : World) (a ex : Value) (i : Nat) (d : Value) (s : MSt) (e : Value)
    (he : jsIndexE ex i = .ok e) (ht : truthy e = false) :
    ((dimensionStep w a ex i d) s).2.trace =
      s.trace ++ [.insertDimensions a s.webPropertyId (dimensionPayload d i)] := by
  unfold dimensionStep
  simp only [mBind, mExcept, he, ht, Bool.false_and, if_neg, Bool.false_eq_true,
    not_false_iff, if_true, if_pos]
  simp only [mSetDimAt, mModRef, mGetWpId]
  exact trace_after_call w _ _ (preserves_dimWriteback i (dimensionPayload d i)) _

theorem dimensionStep_noop (w : World) (a ex : Value) (i : Nat) (d : Value) (s : MSt) (e : Value)
    (he : jsIndexE ex i = .ok e) (ht : truthy e = true) (hc : shouldBeChanged e d = false) :
    (dimensionStep w a ex i d) s = (.ok (.vBool true), s) := by
  unfold dimensionStep
  simp [mBind, mExcept, he, ht, hc, mPure]

/-- A desired custom metric, as the builder shapes it. -/
def metricDesc : Value :=
  vobj [("name", .vStr "M1"), ("scope", .vStr "HIT"), ("active", .vBool true),
        ("type", .vStr "INTEGER")]

/-- A desired custom dimension, as the builder shapes it. -/
def dimDesc : Value :=
  vobj [("name", .vStr "D1"), ("scope", .vStr "HIT"), ("active", .vBool true)]

/-- A pipeline state with an already-resolved web-property id. -/
def mSt0 : MSt := ⟨0, [], descC7, .vStr "WP"⟩

/-- C3 is false as stated on the id pattern: the ids assigned in the
metric/dimension stages carry the "ga:" prefix. Inserting the first desired
metric against an empty remote list issues an insert whose payload is
assigned id "ga:metric1" — which is not "metric1" — and likewise
"ga:dimension1" is not "dimension1". -/
theorem c3_counterexample :
    ((metricStep wC7 (.vNum 42) (varr []) 0 metricDesc) mSt0).2.trace =
      [.insertMetrics (.vNum 42) (.vStr "WP") (metricPayload metricDesc 0)] ∧
    getF (metricPayload metricDesc 0) "id" = .vStr "ga:metric1" ∧
    (Value.vStr "ga:metric1") ≠ .vStr "metric1" ∧
    ((dimensionStep wC7 (.vNum 42) (varr []) 0 dimDesc) mSt0).2.trace =
      [.insertDimensions (.vNum 42) (.vStr "WP") (dimensionPayload dimDesc 0)] ∧
    getF (dimensionPayload dimDesc 0) "id" = .vStr "ga:dimension1" ∧
    (Value.vStr "ga:dimension1") ≠ .vStr "dimension1" :=
  ⟨rfl, rfl, by decide, rfl, rfl, by decide⟩

/-- C3 (amended): for each desired metric at 1-based position i+1, with the
remote lookup `existingMetrics[i]` yielding e: exists-and-differs issues
exactly one patch whose payload is assigned id "ga:metric{i+1}" (with the
1-based index also assigned); no-remote-entry issues exactly one insert
with the same payload; exists-and-matches makes no remote mutation and
leaves the pipeline state untouched. The customDimensions stage runs the
identical algorithm with the "ga:dimension{i+1}" pattern. -/
theorem c3_amended (w : World) (a ex : Value) (i : Nat) (m d : Value) (s : MSt) (e : Value)
    (he : jsIndexE ex i = .ok e) :
    (truthy e = true → shouldBeChanged e m = true →
      ((metricStep w a ex i m) s).2.trace =
        s.trace ++ [.patchMetrics a s.webPropertyId (getF (metricPayload m i) "id")
          (metricPayload m i)]) ∧
    (truthy e = false →
      ((metricStep w a ex i m) s).2.trace =
        s.trace ++ [.insertMetrics a s.webPropertyId (metricPayload m i)]) ∧
    (truthy e = true → shouldBeChanged e m = false →
      (metricStep w a ex i m) s = (.ok (.vBool true), s)) ∧
    (∀ fs, m = .vObj fs →
      getF (metricPayload m i) "id" = .vStr ("ga:metric" ++ natToStr (i + 1))) ∧
    (truthy e = true → shouldBeChanged e d = true →
      ((dimensionStep w a ex i d) s).2.trace =
        s.trace ++ [.patchDimensions a s.webPropertyId (getF (dimensionPayload d i) "id")
          (dimensionPayload d i)]) ∧
    (truthy e = false →
      ((dimensionStep w a ex i d) s).2.trace =
        s.trace ++ [.insertDimensions a s.webPropertyId (dimensionPayload d i)]) ∧
    (truthy e = true → shouldBeChanged e d = false →
      (dimensionStep w a ex i d) s = (.ok (.vBool true), s)) ∧
    (∀ fs, d = .vObj fs →
      getF (dimensionPayload d i) "id" = .vStr ("ga:dimension" ++ natToStr (i + 1))) :=
  ⟨fun ht hc => metricStep_patch w a ex i m s e he ht hc,
   fun ht => metricStep_insert w a ex i m s e he ht,
   fun ht hc => metricStep_noop w a ex i m s e he ht hc,
   fun fs hm => hm ▸ getF_metricPayload_id fs i,
   fun ht hc => dimensionStep_patch w a ex i d s e he ht hc,
   fun ht => dimensionStep_insert w a ex i d s e he ht,
   fun ht hc => dimensionStep_noop w a ex i d s e he ht hc,
   fun fs hd => hd ▸ getF_dimensionPayload_id fs i⟩

/-- Witness for the amended C3: the insert case of both stages at position
1 against an empty remote list, at a concrete state. -/
theorem c3_amended_witness :
    jsIndexE (varr []) 0 = .ok .vUndefined ∧ truthy (.vUndefined : Value) = false ∧
    ((metricStep wC7 (.vNum 42) (varr []) 0 metricDesc) mSt0).2.trace =
      mSt0.trace ++ [.insertMetrics (.vNum 42) mSt0.webPropertyId (metricPayload metricDesc 0)] ∧
    ((dimensionStep wC7 (.vNum 42) (varr []) 0 dimDesc) mSt0).2.trace =
      mSt0.trace ++ [.insertDimensions (.vNum 42) mSt0.webPropertyId (dimensionPayload dimDesc 0)] :=
  ⟨rfl, rfl,
   (c3_amended wC7 (.vNum 42) (varr []) 0 metricDesc dimDesc mSt0 .vUndefined rfl).2.1 rfl,
   (c3_amended wC7 (.vNum 42) (varr []) 0 metricDesc dimDesc mSt0 .vUndefined rfl).2.2.2.2.2.1 rfl⟩

/-- C10: `shouldBeChanged` against a null desired shape reports no change
(first conjunct, for every observed shape); consequently a null entry at a
position whose remote counterpart exists is silently skipped — the step
issues no remote call and leaves the pipeline state untouched (second
conjunct) — while the slot still counts toward the 1-based positions of
later entries: running the dimensions fold on [null, D2] against a remote
list with one existing entry issues exactly one insert, for D2, at position
2 with id "ga:dimension2" (third and fourth conjuncts). -/
theorem c10_null_desired_skipped :
    (∀ source : Value, shouldBeChanged source .vNull = false) ∧
    (∀ (w : World) (a ex : Value) (i : Nat) (s : MSt) (e : Value),
      jsIndexE ex i = .ok e → truthy e = true →
      (dimensionStep w a ex i .vNull) s = (.ok (.vBool true), s)) ∧
    ((dimensionsLoop wC7 (.vNum 42) (varr [vobj [("id", .vStr "E1")]]) 0
        [.vNull, vobj [("name", .vStr "D2")]] .vUndefined) mSt0).2.trace =
      [.insertDimensions (.vNum 42) (.vStr "WP")
        (dimensionPayload (vobj [("name", .vStr "D2")]) 1)] ∧
    getF (dimensionPayload (vobj [("name", .vStr "D2")]) 1) "id" = .vStr "ga:dimension2" :=
  ⟨fun _ => rfl,
   fun w a ex i s e he ht => dimensionStep_noop w a ex i .vNull s e he ht rfl,
   rfl, rfl⟩

/-- Witness for C10 at a concrete remote list with an existing entry at the
null entry's position. -/
theorem c10_null_desired_skipped_witness :
    jsIndexE (varr [vobj [("id", .vStr "E1")]]) 0 = .ok (vobj [("id", .vStr "E1")]) ∧
    truthy (vobj [("id", .vStr "E1")]) = true ∧
    (dimensionStep wC7 (.vNum 42) (varr [vobj [("id", .vStr "E1")]]) 0 .vNull) mSt0 =
      (.ok (.vBool true), mSt0) :=
  ⟨rfl, rfl,
   c10_null_desired_skipped.2.1 wC7 (.vNum 42) (varr [vobj [("id", .vStr "E1")]]) 0 mSt0
     (vobj [("id", .vStr "E1")]) rfl rfl⟩

/-!
Infrastructure for C8: which calls a pipeline computation can emit.
-/

theorem preserves_mGetRef : PreservesTrace mGetRef := fun _ => rfl
theorem preserves_mGetWpId : PreservesTrace mGetWpId := fun _ => rfl
theorem preserves_mSetWpId (v : Value) : PreservesTrace (mSetWpId v) := fun _ => rfl
theorem preserves_mGetViewAt (i : Nat) : PreservesTrace (mGetViewAt i) := fun _ => rfl

/-- Emission bound `Emits x P`: whatever the incoming state, the computation only appends
calls satisfying P to the trace. -/
def Emits (x : M α) (P : RemoteCall → Prop) : Prop :=
  ∀ s : MSt, ∃ t : List RemoteCall, (x s).2.trace = s.trace ++ t ∧ ∀ c ∈ t, P c

theorem emits_of_preserves {x : M α} (h : PreservesTrace x) (P : RemoteCall → Prop) :
    Emits x P :=
  fun s => ⟨[], by simp [h s], by simp⟩

theorem emits_callRemote (w : World) (c : RemoteCall) {P : RemoteCall → Prop} (h : P c) :
    Emits (callRemote w c) P :=
  fun _ => ⟨[c], rfl, by simpa⟩

theorem emits_mBind {x : M α} {f : α → M β} {P : RemoteCall → Prop}
    (hx : Emits x P) (hf : ∀ a, Emits (f a) P) : Emits (mBind x f) P := by
  intro s
  obtain ⟨t1, h1, hp1⟩ := hx s
  unfold mBind
  cases hxs : x s with
  | mk r s1 =>
    rw [hxs] at h1
    cases r with
    | ok a =>
      obtain ⟨t2, h2, hp2⟩ := hf a s1
      refine ⟨t1 ++ t2, ?_, ?_⟩
      · rw [h2, h1, List.append_assoc]
      · intro c hcm
        rcases List.mem_append.mp hcm with hm | hm
        exacts [hp1 c hm, hp2 c hm]
    | error e => exact ⟨t1, h1, hp1⟩

/-- Bind through a pure Except value: the continuation is only reached with
the value the Except actually carries. -/
theorem emits_mBind_except {r : Except JsErrorVal α} {f : α → M β} {P : RemoteCall → Prop}
    (hf : ∀ a, r = .ok a → Emits (f a) P) : Emits (mBind (mExcept r) f) P := by
  intro s
  unfold mBind mExcept
  cases hr : r with
  | ok a => exact hf a hr s
  | error e => exact ⟨[], by simp, by simp⟩

theorem emits_dite (c : Prop) [Decidable c] {x y : M α} {P : RemoteCall → Prop}
    (hx : c → Emits x P) (hy : ¬c → Emits y P) : Emits (if c then x else y) P := by
  by_cases h : c
  · simpa [h] using hx h
  · simpa [h] using hy h

theorem getProp_ok (v : Value) (k : String) (x : Value) (h : getProp v k = .ok x) :
    x = getF v k := by
  cases v <;> simp_all [getProp]

/-- The per-call invariant behind C8: an insert-web-property only happens
when the description's webPropertyId is falsy, and an insert-view payload
always has a falsy id. -/
def NoStaleInsert (ro : RefObject) (c : RemoteCall) : Prop :=
  (∀ a v, c = .insertWebProperty a v → truthy ro.webPropertyId = false) ∧
  (∀ a p v, c = .insertView a p v → truthy (getF v "id") = false)

/-- Any call other than the two insert kinds satisfies the invariant. -/
theorem noStaleInsert_other {ro : RefObject} {c : RemoteCall}
    (h1 : ∀ a v, c ≠ .insertWebProperty a v) (h2 : ∀ a p v, c ≠ .insertView a p v) :
    NoStaleInsert ro c :=
  ⟨fun a v hc => absurd hc (h1 a v), fun a p v hc => absurd hc (h2 a p v)⟩

theorem emits_branchKnownId (w : World) (a wp : Value) (ro : RefObject) :
    Emits (branchKnownId w a wp) (NoStaleInsert ro) := by
  unfold branchKnownId
  refine emits_mBind (emits_callRemote _ _ (noStaleInsert_other (fun _ _ h => nomatch h)
    (fun _ _ _ h => nomatch h))) (fun pub => ?_)
  refine emits_mBind (emits_of_preserves preserves_mGetRef _) (fun ref => ?_)
  refine emits_dite _ (fun _ => ?_) (fun _ => emits_of_preserves (preserves_mPure _) _)
  exact emits_mBind (emits_callRemote _ _ (noStaleInsert_other (fun _ _ h => nomatch h)
    (fun _ _ _ h => nomatch h))) (fun d2 => emits_of_preserves (preserves_mPure _) _)

theorem emits_branchUniqueKey (w : World) (a uk wp : Value) (ro : RefObject) :
    Emits (branchUniqueKey w a uk wp) (NoStaleInsert ro) := by
  unfold branchUniqueKey
  refine emits_mBind (emits_callRemote _ _ (noStaleInsert_other (fun _ _ h => nomatch h)
    (fun _ _ _ h => nomatch h))) (fun data => ?_)
  refine emits_mBind (emits_of_preserves (preserves_mExcept _) _) (fun wps => ?_)
  refine emits_mBind (emits_of_preserves (preserves_mExcept _) _) (fun found => ?_)
  refine emits_mBind (emits_of_preserves (preserves_mExcept _) _) (fun pid => ?_)
  refine emits_mBind (emits_of_preserves (preserves_mSetWpId _) _) (fun _ => ?_)
  refine emits_mBind (emits_of_preserves (preserves_mModRef _) _) (fun _ => ?_)
  refine emits_mBind (emits_of_preserves preserves_mGetRef _) (fun ref => ?_)
  refine emits_dite _ (fun _ => ?_) (fun _ => emits_of_preserves (preserves_mPure _) _)
  exact emits_mBind (emits_callRemote _ _ (noStaleInsert_other (fun _ _ h => nomatch h)
    (fun _ _ _ h => nomatch h))) (fun d2 => emits_of_preserves (preserves_mPure _) _)

theorem emits_branchInsertWp (w : World) (a wp : Value) (ro : RefObject)
    (hro : truthy ro.webPropertyId = false) :
    Emits (branchInsertWp w a wp) (NoStaleInsert ro) := by
  unfold branchInsertWp
  refine emits_mBind (emits_callRemote _ _ ⟨fun _ _ _ => hro, fun _ _ _ h => nomatch h⟩)
    (fun data => ?_)
  refine emits_mBind (emits_of_preserves (preserves_mExcept _) _) (fun nid => ?_)
  refine emits_mBind (emits_of_preserves (preserves_mSetWpId _) _) (fun _ => ?_)
  exact emits_mBind (emits_of_preserves (preserves_mModRef _) _)
    (fun _ => emits_of_preserves (preserves_mPure _) _)

theorem emits_metricStep (w : World) (a ex : Value) (i : Nat) (m : Value) (ro : RefObject) :
    Emits (metricStep w a ex i m) (NoStaleInsert ro) := by
  unfold metricStep
  refine emits_mBind_except (fun e _ => ?_)
  refine emits_dite _ (fun _ => ?_) (fun _ => emits_dite _ (fun _ => ?_)
    (fun _ => emits_of_preserves (preserves_mPure _) _))
  · refine emits_mBind (emits_of_preserves (preserves_mSetMetricAt _ _) _) (fun _ => ?_)
    refine emits_mBind (emits_of_preserves preserves_mGetWpId _) (fun wpId => ?_)
    refine emits_mBind (emits_callRemote _ _ (noStaleInsert_other (fun _ _ h => nomatch h)
      (fun _ _ _ h => nomatch h))) (fun data => ?_)
    refine emits_mBind (emits_of_preserves (preserves_mExcept _) _) (fun nid => ?_)
    exact emits_mBind (emits_of_preserves (preserves_mSetMetricAt _ _) _)
      (fun _ => emits_of_preserves (preserves_mPure _) _)
  · refine emits_mBind (emits_of_preserves (preserves_mSetMetricAt _ _) _) (fun _ => ?_)
    refine emits_mBind (emits_of_preserves preserves_mGetWpId _) (fun wpId => ?_)
    refine emits_mBind (emits_callRemote _ _ (noStaleInsert_other (fun _ _ h => nomatch h)
      (fun _ _ _ h => nomatch h))) (fun data => ?_)
    refine emits_mBind (emits_of_preserves (preserves_mExcept _) _) (fun nid => ?_)
    exact emits_mBind (emits_of_preserves (preserves_mSetMetricAt _ _) _)
      (fun _ => emits_of_preserves (preserves_mPure _) _)

theorem emits_metricsLoop (w : World) (a ex : Value) (ro : RefObject) :
    ∀ (i : Nat) (l : List Value) (last : Value),
      Emits (metricsLoop w a ex i l last) (NoStaleInsert ro)
  | _, [], last => emits_of_preserves (preserves_mPure _) _
  | i, m :: rest, last =>
    emits_mBind (emits_metricStep w a ex i m ro)
      (fun v => emits_metricsLoop w a ex ro (i + 1) rest v)

theorem emits_stageMetrics (w : World) (a cm prev : Value) (ro : RefObject) :
    Emits (stageMetrics w a cm prev) (NoStaleInsert ro) := by
  unfold stageMetrics
  refine emits_dite _ (fun _ => ?_) (fun _ => emits_of_preserves (preserves_mPure _) _)
  refine emits_mBind (emits_of_preserves preserves_mGetWpId _) (fun wpId => ?_)
  refine emits_mBind (emits_callRemote _ _ (noStaleInsert_other (fun _ _ h => nomatch h)
    (fun _ _ _ h => nomatch h))) (fun data => ?_)
  refine emits_mBind (emits_of_preserves (preserves_mExcept _) _) (fun ex2 => ?_)
  cases cm with
  | vArr items => exact emits_metricsLoop w a ex2 ro 0 (itemsToList items) .vUndefined
  | vUndefined => exact emits_of_preserves (preserves_mThrow _) _
  | vNull => exact emits_of_preserves (preserves_mThrow _) _
  | vBool b => exact emits_of_preserves (preserves_mThrow _) _
  | vNum n => exact emits_of_preserves (preserves_mThrow _) _
  | vStr str => exact emits_of_preserves (preserves_mThrow _) _
  | vObj fs => exact emits_of_preserves (preserves_mThrow _) _

theorem emits_dimensionStep (w : World) (a ex : Value) (i : Nat) (d : Value) (ro : RefObject) :
    Emits (dimensionStep w a ex i d) (NoStaleInsert ro) := by
  unfold dimensionStep
  refine emits_mBind_except (fun e _ => ?_)
  refine emits_dite _ (fun _ => ?_) (fun _ => emits_dite _ (fun _ => ?_)
    (fun _ => emits_of_preserves (preserves_mPure _) _))
  · refine emits_mBind (emits_of_preserves (preserves_mSetDimAt _ _) _) (fun _ => ?_)
    refine emits_mBind (emits_of_preserves preserves_mGetWpId _) (fun wpId => ?_)
    refine emits_mBind (emits_callRemote _ _ (noStaleInsert_other (fun _ _ h => nomatch h)
      (fun _ _ _ h => nomatch h))) (fun data => ?_)
    refine emits_mBind (emits_of_preserves (preserves_mExcept _) _) (fun nid => ?_)
    exact emits_mBind (emits_of_preserves (preserves_mSetDimAt _ _) _)
      (fun _ => emits_of_preserves (preserves_mPure _) _)
  · refine emits_mBind (emits_of_preserves (preserves_mSetDimAt _ _) _) (fun _ => ?_)
    refine emits_mBind (emits_of_preserves preserves_mGetWpId _) (fun wpId => ?_)
    refine emits_mBind (emits_callRemote _ _ (noStaleInsert_other (fun _ _ h => nomatch h)
      (fun _ _ _ h => nomatch h))) (fun data => ?_)
    refine emits_mBind (emits_of_preserves (preserves_mExcept _) _) (fun nid => ?_)
    exact emits_mBind (emits_of_preserves (preserves_mSetDimAt _ _) _)
      (fun _ => emits_of_preserves (preserves_mPure _) _)

theorem emits_dimensionsLoop (w : World) (a ex : Value) (ro : RefObject) :
    ∀ (i : Nat) (l : List Value) (last : Value),
      Emits (dimensionsLoop w a ex i l last) (NoStaleInsert ro)
  | _, [], last => emits_of_preserves (preserves_mPure _) _
  | i, d :: rest, last =>
    emits_mBind (emits_dimensionStep w a ex i d ro)
      (fun v => emits_dimensionsLoop w a ex ro (i + 1) rest v)

theorem emits_stageDims (w : World) (a cd prev : Value) (ro : RefObject) :
    Emits (stageDims w a cd prev) (NoStaleInsert ro) := by
  unfold stageDims
  refine emits_dite _ (fun _ => ?_) (fun _ => emits_of_preserves (preserves_mPure _) _)
  refine emits_mBind (emits_of_preserves preserves_mGetWpId _) (fun wpId => ?_)
  refine emits_mBind (emits_callRemote _ _ (noStaleInsert_other (fun _ _ h => nomatch h)
    (fun _ _ _ h => nomatch h))) (fun data => ?_)
  refine emits_mBind (emits_of_preserves (preserves_mExcept _) _) (fun ex2 => ?_)
  cases cd with
  | vArr items => exact emits_dimensionsLoop w a ex2 ro 0 (itemsToList items) .vUndefined
  | vUndefined => exact emits_of_preserves (preserves_mThrow _) _
  | vNull => exact emits_of_preserves (preserves_mThrow _) _
  | vBool b => exact emits_of_preserves (preserves_mThrow _) _
  | vNum n => exact emits_of_preserves (preserves_mThrow _) _
  | vStr str => exact emits_of_preserves (preserves_mThrow _) _
  | vObj fs => exact emits_of_preserves (preserves_mThrow _) _

theorem emits_viewPart1 (w : World) (a : Value) (idx : Nat) (prev : Value) (ro : RefObject) :
    Emits (viewPart1 w a idx prev) (NoStaleInsert ro) := by
  unfold viewPart1
  refine emits_mBind_except (fun ev _ => ?_)
  refine emits_mBind (emits_of_preserves (preserves_mGetViewAt _) _) (fun view => ?_)
  refine emits_mBind_except (fun vid hvid => ?_)
  refine emits_dite _ (fun hfalsy => ?_) (fun _ => ?_)
  · refine emits_mBind_except (fun uk _ => ?_)
    refine emits_dite _ (fun _ => ?_) (fun _ => ?_)
    · exact emits_mBind (emits_of_preserves (preserves_mExcept _) _)
        (fun _ => emits_of_preserves (preserves_mPure _) _)
    · refine emits_mBind (emits_of_preserves preserves_mGetWpId _) (fun wpId => ?_)
      have hP : NoStaleInsert ro (.insertView a wpId view) := by
        constructor
        · intro a2 v2 h
          exact nomatch h
        · intro a2 p2 v2 h
          injection h with e1 e2 e3
          rw [← e3, ← getProp_ok view "id" vid hvid]
          exact hfalsy
      refine emits_mBind (emits_callRemote _ _ hP) (fun data => ?_)
      refine emits_mBind (emits_of_preserves (preserves_mExcept _) _) (fun nid => ?_)
      exact emits_mBind (emits_of_preserves (preserves_mSetViewAt _ _) _)
        (fun _ => emits_of_preserves (preserves_mPure _) _)
  · cases ev with
    | vArr items =>
      refine emits_mBind_except (fun ids _ => ?_)
      cases idIndexOf ids vid with
      | some j =>
        refine emits_dite _ (fun _ => ?_) (fun _ => emits_of_preserves (preserves_mPure _) _)
        refine emits_mBind (emits_of_preserves preserves_mGetWpId _) (fun wpId => ?_)
        exact emits_mBind (emits_callRemote _ _ (noStaleInsert_other (fun _ _ h => nomatch h)
          (fun _ _ _ h => nomatch h))) (fun _ => emits_of_preserves (preserves_mPure _) _)
      | none => exact emits_of_preserves (preserves_mPure _) _
    | vUndefined => exact emits_of_preserves (preserves_mThrow _) _
    | vNull => exact emits_of_preserves (preserves_mThrow _) _
    | vBool b => exact emits_of_preserves (preserves_mThrow _) _
    | vNum n => exact emits_of_preserves (preserves_mThrow _) _
    | vStr str => exact emits_of_preserves (preserves_mThrow _) _
    | vObj fs => exact emits_of_preserves (preserves_mThrow _) _

theorem emits_goalStep (w : World) (a : Value) (vi gi : Nat) (goal prev : Value)
    (ro : RefObject) : Emits (goalStep w a vi gi goal prev) (NoStaleInsert ro) := by
  unfold goalStep
  refine emits_mBind_except (fun eg _ => ?_)
  refine emits_mBind_except (fun e _ => ?_)
  refine emits_dite _ (fun _ => ?_) (fun _ => emits_dite _ (fun _ => ?_)
    (fun _ => emits_of_preserves (preserves_mPure _) _))
  · refine emits_mBind (emits_of_preserves (preserves_mSetGoalAt _ _ _) _) (fun _ => ?_)
    refine emits_mBind (emits_of_preserves (preserves_mGetViewAt _) _) (fun view => ?_)
    refine emits_mBind (emits_of_preserves (preserves_mExcept _) _) (fun pid => ?_)
    refine emits_mBind (emits_of_preserves preserves_mGetWpId _) (fun wpId => ?_)
    refine emits_mBind (emits_callRemote _ _ (noStaleInsert_other (fun _ _ h => nomatch h)
      (fun _ _ _ h => nomatch h))) (fun data => ?_)
    refine emits_mBind (emits_of_preserves (preserves_mExcept _) _) (fun nid => ?_)
    exact emits_mBind (emits_of_preserves (preserves_mSetGoalAt _ _ _) _)
      (fun _ => emits_of_preserves (preserves_mPure _) _)
  · refine emits_mBind (emits_of_preserves (preserves_mSetGoalAt _ _ _) _) (fun _ => ?_)
    refine emits_mBind (emits_of_preserves (preserves_mGetViewAt _) _) (fun view => ?_)
    refine emits_mBind (emits_of_preserves (preserves_mExcept _) _) (fun pid => ?_)
    refine emits_mBind (emits_of_preserves preserves_mGetWpId _) (fun wpId => ?_)
    refine emits_mBind (emits_callRemote _ _ (noStaleInsert_other (fun _ _ h => nomatch h)
      (fun _ _ _ h => nomatch h))) (fun data => ?_)
    refine emits_mBind (emits_of_preserves (preserves_mExcept _) _) (fun nid => ?_)
    exact emits_mBind (emits_of_preserves (preserves_mSetGoalAt _ _ _) _)
      (fun _ => emits_of_preserves (preserves_mPure _) _)

theorem emits_goalsLoop (w : World) (a : Value) (vi : Nat) (ro : RefObject) :
    ∀ (gi : Nat) (l : List Value) (prev : Value),
      Emits (goalsLoop w a vi gi l prev) (NoStaleInsert ro)
  | _, [], prev => emits_of_preserves (preserves_mPure _) _
  | gi, g :: rest, prev =>
    emits_mBind (emits_goalStep w a vi gi g prev ro)
      (fun v => emits_goalsLoop w a vi ro (gi + 1) rest v)

theorem emits_viewPart2 (w : World) (a : Value) (idx : Nat) (goals : List Value)
    (v1 : Value) (ro : RefObject) : Emits (viewPart2 w a idx goals v1) (NoStaleInsert ro) := by
  unfold viewPart2
  refine emits_mBind_except (fun ev _ => ?_)
  cases goals with
  | nil => exact emits_of_preserves (preserves_mPure _) _
  | cons g rest =>
    refine emits_mBind (emits_of_preserves (preserves_mGetViewAt _) _) (fun view => ?_)
    refine emits_mBind (emits_of_preserves (preserves_mExcept _) _) (fun pid => ?_)
    refine emits_mBind (emits_of_preserves preserves_mGetWpId _) (fun wpId => ?_)
    refine emits_mBind (emits_callRemote _ _ (noStaleInsert_other (fun _ _ h => nomatch h)
      (fun _ _ _ h => nomatch h))) (fun gdata => ?_)
    refine emits_mBind (emits_of_preserves (preserves_mExcept _) _) (fun gitems => ?_)
    exact emits_mBind (emits_goalsLoop w a idx ro 0 (g :: rest) _)
      (fun _ => emits_of_preserves (preserves_mPure _) _)

theorem emits_viewPart3 (v2 : Value) (ro : RefObject) :
    Emits (viewPart3 v2) (NoStaleInsert ro) := by
  unfold viewPart3
  exact emits_mBind (emits_of_preserves (preserves_mExcept _) _)
    (fun _ => emits_of_preserves (preserves_mPure _) _)

theorem emits_viewStep (w : World) (a : Value) (idx : Nat) (entry : ViewEntry) (prev : Value)
    (ro : RefObject) : Emits (viewStep w a idx entry prev) (NoStaleInsert ro) := by
  unfold viewStep
  refine emits_mBind (emits_viewPart1 w a idx prev ro) (fun v1 => ?_)
  exact emits_mBind (emits_viewPart2 w a idx entry.goals v1 ro)
    (fun v2 => emits_viewPart3 v2 ro)

theorem emits_viewsLoop (w : World) (a : Value) (ro : RefObject) :
    ∀ (idx : Nat) (l : List ViewEntry) (prev : Value),
      Emits (viewsLoop w a idx l prev) (NoStaleInsert ro)
  | _, [], prev => emits_of_preserves (preserves_mPure _) _
  | idx, e :: rest, prev =>
    emits_mBind (emits_viewStep w a idx e prev ro)
      (fun v => emits_viewsLoop w a ro (idx + 1) rest v)

theorem emits_stageViews (w : World) (a : Value) (views : List ViewEntry)
    (hasUnique hasId : Bool) (prev : Value) (ro : RefObject) :
    Emits (stageViews w a views hasUnique hasId prev) (NoStaleInsert ro) := by
  unfold stageViews
  cases views with
  | nil => exact emits_of_preserves (preserves_mPure _) _
  | cons e rest =>
    refine emits_mBind (emits_dite _ (fun _ => ?_)
      (fun _ => emits_of_preserves (preserves_mPure _) _))
      (fun v0 => emits_viewsLoop w a ro 0 (e :: rest) v0)
    refine emits_mBind (emits_of_preserves preserves_mGetWpId _) (fun wpId => ?_)
    refine emits_mBind (emits_callRemote _ _ (noStaleInsert_other (fun _ _ h => nomatch h)
      (fun _ _ _ h => nomatch h))) (fun data => ?_)
    exact emits_mBind (emits_of_preserves (preserves_mExcept _) _)
      (fun _ => emits_of_preserves (preserves_mPure _) _)

theorem emits_mono {x : M α} {P Q : RemoteCall → Prop} (h : Emits x P)
    (hpq : ∀ c, P c → Q c) : Emits x Q := by
  intro s
  obtain ⟨t, h1, h2⟩ := h s
  exact ⟨t, h1, fun c hc => hpq c (h2 c hc)⟩

theorem emits_makePipeline (w : World) (ro : RefObject) (uk : Value) (hu hi : Bool) :
    Emits (makePipeline w ro uk hu hi) (NoStaleInsert ro) := by
  unfold makePipeline
  refine emits_mBind (emits_dite _ (fun _ => emits_branchKnownId w ro.accountId ro.webPropertyId ro)
    (fun hnot => emits_dite _ (fun _ => emits_branchUniqueKey w ro.accountId uk ro.webProperty ro)
      (fun _ => emits_branchInsertWp w ro.accountId ro.webProperty ro (by simpa using hnot))))
    (fun v1 => ?_)
  refine emits_mBind (emits_stageMetrics w ro.accountId ro.customMetrics v1 ro) (fun v2 => ?_)
  exact emits_mBind (emits_stageDims w ro.accountId ro.customDimensions v2 ro)
    (fun v3 => emits_stageViews w ro.accountId ro.views hu hi v3 ro)

/-- Every remote call `make` issues respects the C8 invariant: inserts of
the web property happen only when the description carries no (truthy)
webPropertyId, and every inserted view payload has a falsy id. -/
theorem makeRun_calls (w : World) (ro : RefObject) :
    ∀ c ∈ (makeRun w ro).trace, NoStaleInsert ro c := by
  unfold makeRun
  by_cases ha : truthy ro.accountId = false
  · simp [ha]
  · rw [if_neg ha]
    cases hg : ukGuard ro with
    | error e => simp
    | ok uk =>
      cases hf : viewFlags ro.views with
      | error e => simp
      | ok flags =>
        obtain ⟨hu, hi⟩ := flags
        obtain ⟨t, htr, hp⟩ := emits_makePipeline w ro uk hu hi ⟨0, [], ro, ro.webPropertyId⟩
        intro c hc
        have hc2 : c ∈ (makePipeline w ro uk hu hi
            ⟨0, [], ro, ro.webPropertyId⟩).2.trace := hc
        rw [htr] at hc2
        exact hp c (by simpa using hc2)

/-- A remote call followed by any continuation puts that call at the head
of the appended trace, whatever the world answers. -/
theorem head_call_bind (w : World) (c0 : RemoteCall) (k : Value → M α)
    (hk : ∀ a, Emits (k a) (fun _ => True)) (s : MSt) :
    ∃ t, ((mBind (callRemote w c0) k) s).2.trace = s.trace ++ c0 :: t := by
  unfold mBind callRemote
  cases hr : (w s.callIdx c0).mapError wrapGA with
  | error e => exact ⟨[], by simp⟩
  | ok pub =>
    obtain ⟨t2, htr2, _⟩ := hk pub { s with callIdx := s.callIdx + 1, trace := s.trace ++ [c0] }
    refine ⟨t2, ?_⟩
    rw [htr2]
    simp

theorem mBind_head (x : M α) (f : α → M β) (s : MSt) (c0 : RemoteCall)
    (hx : ∃ t, (x s).2.trace = s.trace ++ c0 :: t)
    (hf : ∀ a, Emits (f a) (fun _ => True)) :
    ∃ t, ((mBind x f) s).2.trace = s.trace ++ c0 :: t := by
  obtain ⟨t1, h1⟩ := hx
  unfold mBind
  cases hxs : x s with
  | mk r s1 =>
    rw [hxs] at h1
    cases r with
    | ok a =>
      obtain ⟨t2, h2, _⟩ := hf a s1
      exact ⟨t1 ++ t2, by rw [h2, h1]; simp⟩
    | error e => exact ⟨t1, h1⟩

theorem viewsHasUnique_ok (l : List ViewEntry) (hv : ∀ e ∈ l, ∃ fs, e.view = .vObj fs) :
    ∀ r, ∃ u, viewsHasUnique l r = .ok u := by
  induction l with
  | nil => intro r; exact ⟨r, rfl⟩
  | cons e rest ih =>
    intro r
    by_cases hr : truthy r = true
    · obtain ⟨u, hu⟩ := ih (fun x hx => hv x (List.mem_cons_of_mem _ hx)) r
      exact ⟨u, by simp [viewsHasUnique, hr, hu]⟩
    · obtain ⟨fs, hfs⟩ := hv e (List.mem_cons_self _ _)
      obtain ⟨u, hu⟩ := ih (fun x hx => hv x (List.mem_cons_of_mem _ hx))
        (getF e.view "uniqueKey")
      refine ⟨u, ?_⟩
      simp only [viewsHasUnique, hr, if_false, Bool.false_eq_true]
      rw [hfs]
      simp only [getProp]
      rw [← hfs]
      exact hu

theorem viewsHasId_ok (l : List ViewEntry) (hv : ∀ e ∈ l, ∃ fs, e.view = .vObj fs) :
    ∀ r, ∃ u, viewsHasId l r = .ok u := by
  induction l with
  | nil => intro r; exact ⟨r, rfl⟩
  | cons e rest ih =>
    intro r
    by_cases hr : truthy r = true
    · obtain ⟨u, hu⟩ := ih (fun x hx => hv x (List.mem_cons_of_mem _ hx)) r
      exact ⟨u, by simp [viewsHasId, hr, hu]⟩
    · obtain ⟨fs, hfs⟩ := hv e (List.mem_cons_self _ _)
      obtain ⟨u, hu⟩ := ih (fun x hx => hv x (List.mem_cons_of_mem _ hx))
        (.vBool (truthy (getF e.view "id")))
      refine ⟨u, ?_⟩
      simp only [viewsHasId, hr, if_false, Bool.false_eq_true]
      rw [hfs]
      simp only [getProp]
      rw [← hfs]
      exact hu

theorem viewFlags_ok (views : List ViewEntry) (hv : ∀ e ∈ views, ∃ fs, e.view = .vObj fs) :
    ∃ hu hi, viewFlags views = .ok (hu, hi) := by
  cases views with
  | nil => exact ⟨false, false, rfl⟩
  | cons e rest =>
    obtain ⟨u, hu⟩ := viewsHasUnique_ok (e :: rest) hv (.vBool false)
    obtain ⟨b, hb⟩ := viewsHasId_ok (e :: rest) hv (.vBool false)
    exact ⟨truthy u, truthy b, by simp [viewFlags, hu, hb]⟩

/-- When the description carries a truthy account id and webPropertyId
(and the view entries are objects, so that the synchronous flag reduces do
not throw), the first remote call of the run is the fetch of that web
property by id. -/
theorem makeRun_knownId_head (w : World) (ro : RefObject)
    (ha : truthy ro.accountId = true) (hw : truthy ro.webPropertyId = true)
    (hv : ∀ e ∈ ro.views, ∃ fs, e.view = .vObj fs) :
    ∃ t, (makeRun w ro).trace = .getWebProperty ro.accountId ro.webPropertyId :: t := by
  unfold makeRun
  rw [if_neg (by simp [ha])]
  have hguk : ukGuard ro = .ok .vUndefined := by simp [ukGuard, hw]
  rw [hguk]
  obtain ⟨hu, hi, hf⟩ := viewFlags_ok ro.views hv
  rw [hf]
  have hhead : ∃ t, (makePipeline w ro .vUndefined hu hi
      ⟨0, [], ro, ro.webPropertyId⟩).2.trace =
      ([] : List RemoteCall) ++ .getWebProperty ro.accountId ro.webPropertyId :: t := by
    unfold makePipeline
    rw [if_pos hw]
    refine mBind_head _ _ _ _ ?_ (fun v1 => ?_)
    · unfold branchKnownId
      refine head_call_bind w _ _ (fun pub => ?_) _
      refine emits_mBind (emits_of_preserves preserves_mGetRef _) (fun ref => ?_)
      refine emits_dite _ (fun _ => ?_) (fun _ => emits_of_preserves (preserves_mPure _) _)
      exact emits_mBind (emits_callRemote _ _ trivial)
        (fun d2 => emits_of_preserves (preserves_mPure _) _)
    · refine emits_mBind (emits_mono
        (emits_stageMetrics w ro.accountId ro.customMetrics v1 ro) (fun _ _ => trivial))
        (fun v2 => ?_)
      exact emits_mBind (emits_mono
        (emits_stageDims w ro.accountId ro.customDimensions v2 ro) (fun _ _ => trivial))
        (fun v3 => emits_mono (emits_stageViews w ro.accountId ro.views hu hi v3 ro)
          (fun _ _ => trivial))
  obtain ⟨t, ht⟩ := hhead
  refine ⟨t, ?_⟩
  show (makePipeline w ro .vUndefined hu hi ⟨0, [], ro, ro.webPropertyId⟩).2.trace = _
  simpa using ht

/-- C8: in every run of `make`, an insert-web-property call occurs only
when the description's webPropertyId is absent (falsy), an insert-view call
only ever carries a view payload with a falsy id, and a run whose
description carries a truthy account id and webPropertyId routes the web
property through a fetch by id as its first remote call. -/
theorem c8_identity_stability (w : World) (ro : RefObject) :
    (∀ a v, RemoteCall.insertWebProperty a v ∈ (makeRun w ro).trace →
      truthy ro.webPropertyId = false) ∧
    (∀ a p v, RemoteCall.insertView a p v ∈ (makeRun w ro).trace →
      truthy (getF v "id") = false) ∧
    (truthy ro.accountId = true → truthy ro.webPropertyId = true →
      (∀ e ∈ ro.views, ∃ fs, e.view = .vObj fs) →
      ∃ t, (makeRun w ro).trace = .getWebProperty ro.accountId ro.webPropertyId :: t) :=
  ⟨fun a v hm => (makeRun_calls w ro _ hm).1 a v rfl,
   fun a p v hm => (makeRun_calls w ro _ hm).2 a p v rfl,
   fun ha hw hv => makeRun_knownId_head w ro ha hw hv⟩

/-- A description carrying an already-known web-property id. -/
def descC8 : RefObject :=
  ⟨.vNum 7, vobj [("name", .vStr "A"), ("websiteUrl", .vStr "http://a")], .vStr "WPX",
   .vUndefined, .vUndefined,
   [⟨vobj [("id", .vStr "V1"), ("name", .vStr "View 1")], [], []⟩]⟩

/-- Witness for C8: with a known web-property id, the first remote call of
the run fetches that web property. -/
theorem c8_identity_stability_witness :
    truthy descC8.accountId = true ∧ truthy descC8.webPropertyId = true ∧
    (∀ e ∈ descC8.views, ∃ fs, e.view = .vObj fs) ∧
    ∃ t, (makeRun wC7 descC8).trace = .getWebProperty (.vNum 7) (.vStr "WPX") :: t :=
  ⟨rfl, rfl,
   fun e he => by
    simp only [descC8, List.mem_singleton] at he
    subst he
    exact ⟨VFields.cons "id" (.vStr "V1") (VFields.cons "name" (.vStr "View 1") .nil), rfl⟩,
   (c8_identity_stability wC7 descC8).2.2 rfl rfl (fun e he => by
    simp only [descC8, List.mem_singleton] at he
    subst he
    exact ⟨VFields.cons "id" (.vStr "V1") (VFields.cons "name" (.vStr "View 1") .nil), rfl⟩)⟩

end Gamanip
